import Mathlib

/-!
A verification development for the tasker backend: an in-memory entity
store for users and tasks with secondary indexes, field-mask patching,
pagination tokens, snapshot persistence with RFC3339 timestamp
serialization, and a chunked attachment-upload pipeline.

The Rust source is embedded shallowly: machine-integer casts are modelled
with explicit modular arithmetic (Rust release-mode wrapping semantics),
HashMap values are modelled as association lists in iteration order, and
fallible operations return Option or Except.
-/

deriving instance DecidableEq for Except

namespace Tasker

/-- Protobuf well-known Timestamp (prost_types::Timestamp): i64 seconds,
i32 nanos.  Wrapped by SerdeTimestamp in the source, which only changes
the JSON serialization, so we use one type. -/
structure Timestamp where
  seconds : Int
  nanos : Int
deriving DecidableEq, Repr

/-- TaskMetrics message.  completion_percentage is an f32 in the source;
finite float values are modelled as rationals (NaN and infinities are
outside the model; serde_json refuses to serialize them anyway). -/
structure TaskMetrics where
  estimated_hours : Int
  actual_hours : Int
  completion_percentage : Rat
deriving DecidableEq, Repr

/-- Modelled from the spec: the TaskComment message is declared in
proto/message.proto, which is outside src/; the spec only says a task has
an ordered list of comments.  We model a comment as an opaque record with
a content string and an optional timestamp (the timestamp matters for
persistence round trips). -/
structure TaskComment where
  id : String
  author_id : String
  content : String
  created_at : Option Timestamp
deriving DecidableEq, Repr

/-- TaskAttachment message, fields as used in task_service.rs
upload_task_attachment. -/
structure TaskAttachment where
  id : String
  filename : String
  content_type : String
  file_size : Nat
  uploaded_at : Option Timestamp
  uploaded_by : String
  url : String
deriving DecidableEq, Repr

/-- Task message.  status and priority are proto enums carried as i32 on
the wire and in all the source code paths we embed, so they are Ints. -/
structure Task where
  id : String
  title : String
  description : String
  status : Int
  priority : Int
  tags : List String
  assigned_to : String
  created_at : Option Timestamp
  updated_at : Option Timestamp
  due_date : Option Timestamp
  metrics : Option TaskMetrics
  comments : List TaskComment
  attachments : List TaskAttachment
deriving DecidableEq, Repr

/-- Modelled from the spec: the TaskStatus enum lives in
proto/message.proto, outside src/.  The spec lists
{Unspecified, Todo, InProgress, Done, ...}; the code comment at
count_overdue_tasks (storage.rs) reads "task.status != 4 // Not completed",
fixing the wire value of the completed status at 4. -/
def TaskStatus.unspecified : Int := 0

/-- Todo wire value (TaskStatus::Todo as i32); create_task assigns it. -/
def TaskStatus.todo : Int := 1

/-- InProgress wire value. -/
def TaskStatus.inProgress : Int := 2

/-- Done wire value: 4, per the "Not completed" comparison against 4 in
storage.rs count_overdue_tasks. -/
def TaskStatus.done : Int := 4

/-- UserPreferences message. -/
structure UserPreferences where
  theme : String
  language : String
  timezone : String
  notifications_enabled : Bool
  email_notifications : Bool
deriving DecidableEq, Repr

/-- UserProfile message. -/
structure UserProfile where
  avatar_url : String
  bio : String
  department : String
  phone : String
  location : String
deriving DecidableEq, Repr

/-- User message, fields as constructed in user_service.rs create_user. -/
structure User where
  id : String
  username : String
  email : String
  full_name : String
  role : Int
  is_active : Bool
  permissions : List String
  status : Int
  created_at : Option Timestamp
  updated_at : Option Timestamp
  last_login : Option Timestamp
  preferences : Option UserPreferences
  profile : Option UserProfile
deriving DecidableEq, Repr

/-- Modelled from the spec: UserStatus::Active as i32; the enum is in the
proto file outside src/.  Proto enums start at Unspecified = 0, so Active
is taken as 1.  No claim depends on the exact value. -/
def UserStatus.active : Int := 1

/-! ## Association-list model of std HashMap

Rust HashMap iteration order is arbitrary; we model a map as the list of
its entries in iteration order.  insert replaces the value of an existing
key in place (or appends a fresh key), remove deletes the key's entry,
get finds the entry's value. -/

/-- HashMap::get. -/
def alookup {α : Type} : List (String × α) → String → Option α
  | [], _ => none
  | (k0, v0) :: rest, k => if k0 = k then some v0 else alookup rest k

/-- HashMap::insert: replace in place if the key is present, else add. -/
def ainsert {α : Type} : List (String × α) → String → α → List (String × α)
  | [], k, v => [(k, v)]
  | (k0, v0) :: rest, k, v =>
      if k0 = k then (k, v) :: rest else (k0, v0) :: ainsert rest k v

/-- HashMap::remove (the Bool result is recovered via alookup). -/
def aerase {α : Type} (l : List (String × α)) (k : String) : List (String × α) :=
  l.filter (fun e => e.1 != k)

/-- StorageData (storage.rs): the five persisted collections. -/
structure StorageData where
  users : List (String × User)
  users_by_email : List (String × String)
  users_by_username : List (String × String)
  tasks : List (String × Task)
  user_tasks : List (String × List String)
deriving DecidableEq, Repr

/-- StorageData::default(). -/
def StorageData.default : StorageData :=
  { users := [], users_by_email := [], users_by_username := [],
    tasks := [], user_tasks := [] }

/-! ## Pagination-token decoding

storage.rs: page_token.strip_prefix("page_").and_then(|s| s.parse().ok())
.unwrap_or(0); the parse target is usize.  Rust unsigned integer parsing
accepts an optional leading '+', then one or more ASCII digits, and fails
on overflow. -/

/-- Digit accumulation for Rust str::parse on unsigned integers: every
character must be an ASCII digit. -/
def natOfDigitsAcc : List Char → Nat → Option Nat
  | [], acc => some acc
  | c :: cs, acc =>
      if c.isDigit then natOfDigitsAcc cs (acc * 10 + (c.toNat - 48)) else none

/-- Rust unsigned parsing strips one optional leading '+'. -/
def stripPlusSign (cs : List Char) : List Char :=
  match cs with
  | c :: rest => if c = '+' then rest else c :: rest
  | [] => []

/-- The digit phase of Rust str::parse on an unsigned type with maximum
value maxv: a non-empty run of ASCII digits, failing on overflow. -/
def parseDigits (maxv : Nat) (cs : List Char) : Option Nat :=
  match cs with
  | [] => none
  | _ =>
    match natOfDigitsAcc cs 0 with
    | some v => if v ≤ maxv then some v else none
    | none => none

/-- Rust str::parse for an unsigned integer type with maximum value maxv:
optional '+' sign, then a non-empty run of digits, failing on overflow. -/
def parseUNat (maxv : Nat) (cs : List Char) : Option Nat :=
  parseDigits maxv (stripPlusSign cs)

/-- usize::MAX on a 64-bit target. -/
def usizeMax : Nat := 2 ^ 64 - 1

/-- u32::MAX. -/
def u32Max : Nat := 2 ^ 32 - 1

/-- The page-token decoder used by every list/search operation in
storage.rs: strip the "page_" prefix, parse the rest as usize, and fall
back to page 0 on any failure. -/
def decodePageToken (tok : String) : Nat :=
  match tok.data with
  | 'p' :: 'a' :: 'g' :: 'e' :: '_' :: rest => (parseUNat usizeMax rest).getD 0
  | _ => 0

/-- The services' next_page_token computation parses the RAW incoming
token as u32 (req.page_token.parse::<u32>().unwrap_or(0)), without
stripping any prefix. -/
def parseRawTokenU32 (tok : String) : Nat :=
  (parseUNat u32Max tok.data).getD 0

/-- Rust cast i32 -> usize: sign extension, i.e. the value modulo 2^64. -/
def usizeOfI32 (i : Int) : Nat := (i % (2 : Int) ^ 64).toNat


/-! ## RFC3339 timestamp persistence (types/timestamp.rs)

save_to_disk and load_from_disk persist StorageData as JSON through
serde_json, which is structurally faithful on strings, integers, booleans
and lists; the only custom codec is timestamp_serde, which writes each
timestamp as the chrono RFC3339 string and reads it back with
parse_from_rfc3339.  The definitions below embed that codec.  The
serializer bound: the code fails on timestamps whose u64 second count
overflows SystemTime or chrono; the model draws the line at
9999-12-31T23:59:59Z, the last instant to_rfc3339 prints with a four-digit
year (beyond it chrono switches to a six-digit year form).  Every theorem
either stays inside the four-digit range, where model and code agree
exactly, or sits at the u64 wrap-around of a negative timestamp, where
both fail. -/

/-- Day of era on which year-of-era yoe begins: 365 days per year plus the leap days accumulated before it (civil-calendar arithmetic underlying chrono date conversions). -/
def yearStartOfEra (yoe : Nat) : Nat := 365 * yoe + yoe / 4 - yoe / 100


/-- Length in days of year-of-era yoe (365 or 366). -/
def yearLen (yoe : Nat) : Nat :=
  (if yoe = 399 then 146097 else yearStartOfEra (yoe + 1)) - yearStartOfEra yoe


/-- Numerator of the year-of-era formula: day-of-era corrected for leap days. -/
def yoeNum (doe : Nat) : Nat := doe - doe / 1460 + doe / 36524 - doe / 146096


/-- Year of era (0..399) containing day-of-era doe. -/
def yoeOfDoe (doe : Nat) : Nat := yoeNum doe / 365


/-- Kernel-checkable test that yoeOfDoe answers yoe at the first and last day of year-of-era yoe. -/
def yoeEndpointsOk (yoe : Nat) : Bool :=
  (yoeOfDoe (yearStartOfEra yoe) == yoe) &&
  (yoeOfDoe (yearStartOfEra yoe + yearLen yoe - 1) == yoe)


/-- Kernel-checkable test that the month/day extraction of civilFromDays is correct and invertible for one day-of-year doy. -/
def monthDayOk (doy : Nat) : Bool :=
  let mp := (5 * doy + 2) / 153
  let m := if mp < 10 then mp + 3 else mp - 9
  let d := doy - (153 * mp + 2) / 5 + 1
  ((153 * (if m > 2 then m - 3 else m + 9) + 2) / 5 + d - 1 == doy) &&
    (1 ≤ m : Bool) && (m ≤ 12 : Bool) && (1 ≤ d : Bool) && (d ≤ 31 : Bool) &&
    (decide (m ≤ 2) == decide (306 ≤ doy))


/-- Fuel-driven balanced conjunction of f over the interval [lo, lo+size); balanced splitting keeps kernel reduction shallow. -/
def checkBelow (f : Nat → Bool) : Nat → Nat → Nat → Bool
  | 0, _, size => size == 0
  | fuel + 1, lo, size =>
      if size = 0 then true
      else if size = 1 then f lo
      else checkBelow f fuel lo (size / 2) &&
           checkBelow f fuel (lo + size / 2) (size - size / 2)


/-- Civil date (year, month, day) of the day numbered z from 1970-01-01, for z >= 0: the standard civil-from-days algorithm used by chrono for its calendar conversions, specialised to nonnegative day numbers (the serializer only ever reaches it with such). -/
def civilFromDays (z : Nat) : Nat × Nat × Nat :=
  let z' := z + 719468
  let era := z' / 146097
  let doe := z' % 146097
  let yoe := yoeOfDoe doe
  let doy := doe - yearStartOfEra yoe
  let mp := (5 * doy + 2) / 153
  let d := doy - (153 * mp + 2) / 5 + 1
  let m := if mp < 10 then mp + 3 else mp - 9
  (if m ≤ 2 then era * 400 + yoe + 1 else era * 400 + yoe, m, d)


/-- Day number from 1970-01-01 of the civil date y-m-d (inverse of civilFromDays on real dates at or after the epoch). -/
def daysFromCivil (y m d : Nat) : Nat :=
  let y' := if m ≤ 2 then y - 1 else y
  let era := y' / 400
  let yoe := y' % 400
  let doy := (153 * (if m > 2 then m - 3 else m + 9) + 2) / 5 + d - 1
  let doe := yoe * 365 + yoe / 4 - yoe / 100 + doy
  era * 146097 + doe - 719468


/-- Decimal digit character of n (n < 10). -/
def natDigitChar (n : Nat) : Char :=
  match n with
  | 0 => '0' | 1 => '1' | 2 => '2' | 3 => '3' | 4 => '4'
  | 5 => '5' | 6 => '6' | 7 => '7' | 8 => '8' | _ => '9'


/-- Fixed-width base-10 digit list of n, k digits, most significant first. -/
def padDigits : Nat → Nat → List Nat
  | 0, _ => []
  | k + 1, n => (n / 10 ^ k) :: padDigits k (n % 10 ^ k)


/-- Zero-padded k-digit decimal rendering of n, as chrono emits date and time fields. -/
def padChars (k n : Nat) : List Char := (padDigits k n).map natDigitChar


/-- Value of a decimal digit character, none for a non-digit. -/
def readDigit (c : Char) : Option Nat :=
  if c.isDigit then some (c.toNat - 48) else none


/-- Accumulator loop of readFixedNat. -/
def readFixedAux : Nat → Nat → List Char → Option (Nat × List Char)
  | 0, acc, cs => some (acc, cs)
  | _ + 1, _, [] => none
  | k + 1, acc, c :: cs =>
      match readDigit c with
      | some dv => readFixedAux k (acc * 10 + dv) cs
      | none => none


/-- Parse exactly k decimal digits into a number, returning the rest of the input (chrono reads fixed-width date/time fields). -/
def readFixedNat (k : Nat) (cs : List Char) : Option (Nat × List Char) :=
  readFixedAux k 0 cs


/-- Require character c next, returning the rest of the input. -/
def expectChar (c : Char) : List Char → Option (List Char)
  | c0 :: cs => if c0 = c then some cs else none
  | [] => none


/-- Longest prefix of decimal digits, as values, with the rest of the input. -/
def collectDigits : List Char → List Nat × List Char
  | [] => ([], [])
  | c :: cs =>
      match readDigit c with
      | some dv =>
          let r := collectDigits cs
          (dv :: r.1, r.2)
      | none => ([], c :: cs)


/-- Value of a most-significant-first digit list. -/
def digitsVal (ds : List Nat) : Nat := ds.foldl (fun a dv => a * 10 + dv) 0


/-- Optional fractional-seconds part: a dot followed by at least one digit, scaled to nanoseconds with digits beyond the ninth discarded, as chrono parses it; absent fraction is zero nanoseconds. -/
def readFrac (cs : List Char) : Option (Nat × List Char) :=
  match cs with
  | '.' :: cs1 =>
      let r := collectDigits cs1
      if r.1.isEmpty then none
      else some (digitsVal (r.1.take 9) * 10 ^ (9 - min r.1.length 9), r.2)
  | _ => some (0, cs)


/-- RFC3339 numeric or Z offset in seconds east of UTC. -/
def readOffset (cs : List Char) : Option (Int × List Char) :=
  match cs with
  | [] => none
  | 'Z' :: cs1 => some (0, cs1)
  | 'z' :: cs1 => some (0, cs1)
  | c :: cs1 =>
      if c = '+' ∨ c = '-' then
        match readFixedNat 2 cs1 with
        | some (oh, cs2) =>
            match expectChar ':' cs2 with
            | some cs3 =>
                match readFixedNat 2 cs3 with
                | some (om, cs4) =>
                    if oh ≤ 23 ∧ om ≤ 59 then
                      some (if c = '-' then -((oh * 3600 + om * 60 : Nat) : Int)
                            else ((oh * 3600 + om * 60 : Nat) : Int), cs4)
                    else none
                | none => none
            | none => none
        | none => none
      else none


/-- Fractional part exactly as chrono to_rfc3339 prints it (SecondsFormat::AutoSi): nothing for zero nanoseconds, else 3, 6 or 9 digits depending on trailing zeros. -/
def fracChars (frac : Nat) : List Char :=
  if frac = 0 then []
  else if frac % 1000000 = 0 then '.' :: padChars 3 (frac / 1000000)
  else if frac % 1000 = 0 then '.' :: padChars 6 (frac / 1000)
  else '.' :: padChars 9 frac


/-- Seconds of 9999-12-31T23:59:59Z, the last instant the model serializes; see the section comment. -/
def maxRfc3339Seconds : Nat := 253402300799


/-- chrono DateTime<Utc>::to_rfc3339 on the instant total seconds + frac nanoseconds after the epoch: date-time with zero-padded fields, AutoSi fraction and the +00:00 offset of Utc. -/
def rfc3339Chars (total frac : Nat) : List Char :=
  let days := total / 86400
  let sod := total % 86400
  let c := civilFromDays days
  padChars 4 c.1 ++ '-' :: (padChars 2 c.2.1 ++ '-' :: (padChars 2 c.2.2 ++
    'T' :: (padChars 2 (sod / 3600) ++ ':' :: (padChars 2 (sod % 3600 / 60) ++
    ':' :: (padChars 2 (sod % 60) ++ (fracChars frac ++
    ['+', '0', '0', ':', '0', '0']))))))


/-- timestamp_serde::serialize (timestamp.rs): seconds cast to u64 and nanos to u32 (wrapping), carried into a Duration (nanos beyond 10^9 overflow into seconds), added to UNIX_EPOCH and formatted with to_rfc3339; fails (serde error) when the result is out of range, modelled by the four-digit-year bound. -/
def tsSerialize (ts : Timestamp) : Option String :=
  let secsU : Nat := (ts.seconds % (2 : Int) ^ 64).toNat
  let nanosU : Nat := (ts.nanos % (2 : Int) ^ 32).toNat
  let total := secsU + nanosU / 1000000000
  let frac := nanosU % 1000000000
  if total ≤ maxRfc3339Seconds then some (String.mk (rfc3339Chars total frac))
  else none


/-- Date-time separator of RFC3339: T or t. -/
def expectSep : List Char → Option (List Char)
  | c :: r => if c = 'T' ∨ c = 't' then some r else none
  | [] => none


/-- timestamp_serde::deserialize (timestamp.rs) on the character list: DateTime::parse_from_rfc3339, then timestamp() and timestamp_subsec_nanos().  Field ranges are validated; the model accepts a few impossible dates (e.g. February 30) that chrono rejects, a difference no theorem touches since the serializer only emits real dates. -/
def tsDeserializeChars (cs : List Char) : Option Timestamp := do
  let (y, cs1) ← readFixedNat 4 cs
  let cs2 ← expectChar '-' cs1
  let (mo, cs3) ← readFixedNat 2 cs2
  let cs4 ← expectChar '-' cs3
  let (dy, cs5) ← readFixedNat 2 cs4
  let cs6 ← expectSep cs5
  let (hh, cs7) ← readFixedNat 2 cs6
  let cs8 ← expectChar ':' cs7
  let (mi, cs9) ← readFixedNat 2 cs8
  let cs10 ← expectChar ':' cs9
  let (ss, cs11) ← readFixedNat 2 cs10
  let (nanos, cs12) ← readFrac cs11
  let (off, cs13) ← readOffset cs12
  if 1 ≤ mo ∧ mo ≤ 12 ∧ 1 ≤ dy ∧ dy ≤ 31 ∧ hh ≤ 23 ∧ mi ≤ 59 ∧ ss ≤ 59 ∧
      cs13 = [] then
    some { seconds := ((daysFromCivil y mo dy * 86400 + hh * 3600 + mi * 60 +
             ss : Nat) : Int) - off,
           nanos := (nanos : Nat) }
  else none


/-- timestamp_serde::deserialize on a string. -/
def tsDeserialize (s : String) : Option Timestamp :=
  tsDeserializeChars s.data


/-! ### JSON images of the persisted entities

serde_json writes StorageData as a JSON object; every non-timestamp field
round-trips structurally, and each `Option Timestamp` field is persisted
as the RFC3339 string produced by timestamp_serde (None becomes null).
The J-structures below are the images of the entities in the persisted
file, with timestamps replaced by their serialized strings; encode* is
save_to_disk's serialization and decode* is load_from_disk's
deserialization, each failing exactly where timestamp_serde fails. -/

/-- Serialize or deserialize every element of a list, failing if any
element fails (serde's treatment of JSON arrays and object entries). -/
def optMapList {α β : Type} (f : α → Option β) : List α → Option (List β)
  | [] => some []
  | a :: l => do
      let b ← f a
      let bs ← optMapList f l
      some (b :: bs)

/-- Persisted image of an optional timestamp: None passes through, Some
is serialized by timestamp_serde (and fails if the timestamp does). -/
def tsSerializeOpt : Option Timestamp → Option (Option String)
  | none => some none
  | some ts => (tsSerialize ts).map some

/-- Deserialization of an optional persisted timestamp. -/
def tsDeserializeOpt : Option String → Option (Option Timestamp)
  | none => some none
  | some s => (tsDeserialize s).map some

/-- Persisted image of a TaskComment. -/
structure JTaskComment where
  id : String
  author_id : String
  content : String
  created_at : Option String
deriving DecidableEq, Repr

/-- Persisted image of a TaskAttachment. -/
structure JTaskAttachment where
  id : String
  filename : String
  content_type : String
  file_size : Nat
  uploaded_at : Option String
  uploaded_by : String
  url : String
deriving DecidableEq, Repr

/-- Persisted image of a Task. -/
structure JTask where
  id : String
  title : String
  description : String
  status : Int
  priority : Int
  tags : List String
  assigned_to : String
  created_at : Option String
  updated_at : Option String
  due_date : Option String
  metrics : Option TaskMetrics
  comments : List JTaskComment
  attachments : List JTaskAttachment
deriving DecidableEq, Repr

/-- Persisted image of a User. -/
structure JUser where
  id : String
  username : String
  email : String
  full_name : String
  role : Int
  is_active : Bool
  permissions : List String
  status : Int
  created_at : Option String
  updated_at : Option String
  last_login : Option String
  preferences : Option UserPreferences
  profile : Option UserProfile
deriving DecidableEq, Repr

/-- Persisted image of StorageData (the JSON file contents). -/
structure JStorageData where
  users : List (String × JUser)
  users_by_email : List (String × String)
  users_by_username : List (String × String)
  tasks : List (String × JTask)
  user_tasks : List (String × List String)
deriving DecidableEq, Repr

/-- Serialization of a TaskComment for the snapshot file. -/
def encodeComment (c : TaskComment) : Option JTaskComment := do
  let ca ← tsSerializeOpt c.created_at
  some { id := c.id, author_id := c.author_id, content := c.content,
         created_at := ca }

/-- Deserialization of a TaskComment from the snapshot file. -/
def decodeComment (j : JTaskComment) : Option TaskComment := do
  let ca ← tsDeserializeOpt j.created_at
  some { id := j.id, author_id := j.author_id, content := j.content,
         created_at := ca }

/-- Serialization of a TaskAttachment for the snapshot file. -/
def encodeAttachment (a : TaskAttachment) : Option JTaskAttachment := do
  let ua ← tsSerializeOpt a.uploaded_at
  some { id := a.id, filename := a.filename, content_type := a.content_type,
         file_size := a.file_size, uploaded_at := ua,
         uploaded_by := a.uploaded_by, url := a.url }

/-- Deserialization of a TaskAttachment from the snapshot file. -/
def decodeAttachment (j : JTaskAttachment) : Option TaskAttachment := do
  let ua ← tsDeserializeOpt j.uploaded_at
  some { id := j.id, filename := j.filename, content_type := j.content_type,
         file_size := j.file_size, uploaded_at := ua,
         uploaded_by := j.uploaded_by, url := j.url }

/-- Serialization of a Task for the snapshot file. -/
def encodeTask (t : Task) : Option JTask := do
  let ca ← tsSerializeOpt t.created_at
  let ua ← tsSerializeOpt t.updated_at
  let dd ← tsSerializeOpt t.due_date
  let jcs ← optMapList encodeComment t.comments
  let jas ← optMapList encodeAttachment t.attachments
  some { id := t.id, title := t.title, description := t.description,
         status := t.status, priority := t.priority, tags := t.tags,
         assigned_to := t.assigned_to, created_at := ca, updated_at := ua,
         due_date := dd, metrics := t.metrics, comments := jcs,
         attachments := jas }

/-- Deserialization of a Task from the snapshot file. -/
def decodeTask (j : JTask) : Option Task := do
  let ca ← tsDeserializeOpt j.created_at
  let ua ← tsDeserializeOpt j.updated_at
  let dd ← tsDeserializeOpt j.due_date
  let cs ← optMapList decodeComment j.comments
  let ats ← optMapList decodeAttachment j.attachments
  some { id := j.id, title := j.title, description := j.description,
         status := j.status, priority := j.priority, tags := j.tags,
         assigned_to := j.assigned_to, created_at := ca, updated_at := ua,
         due_date := dd, metrics := j.metrics, comments := cs,
         attachments := ats }

/-- Serialization of a User for the snapshot file. -/
def encodeUser (u : User) : Option JUser := do
  let ca ← tsSerializeOpt u.created_at
  let ua ← tsSerializeOpt u.updated_at
  let ll ← tsSerializeOpt u.last_login
  some { id := u.id, username := u.username, email := u.email,
         full_name := u.full_name, role := u.role, is_active := u.is_active,
         permissions := u.permissions, status := u.status, created_at := ca,
         updated_at := ua, last_login := ll, preferences := u.preferences,
         profile := u.profile }

/-- Deserialization of a User from the snapshot file. -/
def decodeUser (j : JUser) : Option User := do
  let ca ← tsDeserializeOpt j.created_at
  let ua ← tsDeserializeOpt j.updated_at
  let ll ← tsDeserializeOpt j.last_login
  some { id := j.id, username := j.username, email := j.email,
         full_name := j.full_name, role := j.role, is_active := j.is_active,
         permissions := j.permissions, status := j.status, created_at := ca,
         updated_at := ua, last_login := ll, preferences := j.preferences,
         profile := j.profile }

/-- Entry-wise monadic map over an association list, keys untouched. -/
def mapPairsM {α β : Type} (f : α → Option β) (l : List (String × α)) :
    Option (List (String × β)) :=
  optMapList (fun p => do
    let b ← f p.2
    some (p.1, b)) l

/-- save_to_disk's serialization of the whole store: users and tasks carry
timestamps, the three index maps are plain string data. -/
def encodeStorage (d : StorageData) : Option JStorageData := do
  let us ← mapPairsM encodeUser d.users
  let ts ← mapPairsM encodeTask d.tasks
  some { users := us, users_by_email := d.users_by_email,
         users_by_username := d.users_by_username, tasks := ts,
         user_tasks := d.user_tasks }

/-- load_from_disk's deserialization of a snapshot file. -/
def decodeStorage (j : JStorageData) : Option StorageData := do
  let us ← mapPairsM decodeUser j.users
  let ts ← mapPairsM decodeTask j.tasks
  some { users := us, users_by_email := j.users_by_email,
         users_by_username := j.users_by_username, tasks := ts,
         user_tasks := j.user_tasks }

/-- RFC3339-representable timestamp: nonnegative seconds within the
four-digit-year range and canonical nanoseconds. -/
def validTsB (ts : Timestamp) : Bool :=
  decide (0 ≤ ts.seconds) && decide (ts.seconds ≤ (maxRfc3339Seconds : Int)) &&
    decide (0 ≤ ts.nanos) && decide (ts.nanos < 1000000000)

/-- An absent timestamp is always representable. -/
def validTsOptB : Option Timestamp → Bool
  | none => true
  | some ts => validTsB ts

/-- All timestamps of a comment are representable. -/
def validCommentB (c : TaskComment) : Bool := validTsOptB c.created_at

/-- All timestamps of an attachment are representable. -/
def validAttachmentB (a : TaskAttachment) : Bool := validTsOptB a.uploaded_at

/-- All timestamps of a task (including nested comments and attachments)
are representable. -/
def validTaskB (t : Task) : Bool :=
  validTsOptB t.created_at && validTsOptB t.updated_at &&
    validTsOptB t.due_date && t.comments.all validCommentB &&
    t.attachments.all validAttachmentB

/-- All timestamps of a user are representable. -/
def validUserB (u : User) : Bool :=
  validTsOptB u.created_at && validTsOptB u.updated_at &&
    validTsOptB u.last_login

/-- Every timestamp stored anywhere in the store is representable. -/
def validStorageB (d : StorageData) : Bool :=
  d.users.all (fun p => validUserB p.2) && d.tasks.all (fun p => validTaskB p.2)

/-! ## Storage operations (storage.rs)

Each operation is the body of its single critical section, as a pure
state transformer.  Persistence (auto_save) is I/O outside the lock and
does not change the in-memory state, so it does not appear here. -/

namespace Storage

/-- Storage::create_user: unconditionally insert into the primary map and
all three secondary indexes, with a fresh empty user_tasks entry. -/
def create_user (d : StorageData) (user : User) : StorageData :=
  { d with
    users := ainsert d.users user.id user,
    users_by_email := ainsert d.users_by_email user.email user.id,
    users_by_username := ainsert d.users_by_username user.username user.id,
    user_tasks := ainsert d.user_tasks user.id [] }

/-- Storage::get_user. -/
def get_user (d : StorageData) (user_id : String) : Option User :=
  alookup d.users user_id

/-- Storage::get_user_by_email: resolve through the email index, then the
primary map. -/
def get_user_by_email (d : StorageData) (email : String) : Option User :=
  match alookup d.users_by_email email with
  | some user_id => alookup d.users user_id
  | none => none

/-- Storage::get_user_by_username. -/
def get_user_by_username (d : StorageData) (username : String) : Option User :=
  match alookup d.users_by_username username with
  | some user_id => alookup d.users user_id
  | none => none

/-- Storage::update_user: an upsert on the primary map only; no secondary
index is touched. -/
def update_user (d : StorageData) (user : User) : StorageData :=
  { d with users := ainsert d.users user.id user }

/-- Storage::delete_user: remove the user and its index entries keyed by
the stored user's current email and username, plus its user_tasks entry. -/
def delete_user (d : StorageData) (user_id : String) : Bool × StorageData :=
  match alookup d.users user_id with
  | some user =>
      (true,
       { d with
         users := aerase d.users user_id,
         users_by_email := aerase d.users_by_email user.email,
         users_by_username := aerase d.users_by_username user.username,
         user_tasks := aerase d.user_tasks user_id })
  | none => (false, d)

/-- Storage::list_users: decode the token, skip page*size, take size,
over the users map's iteration order.  Rust release arithmetic: the cast
and the multiply wrap modulo 2^64. -/
def list_users (d : StorageData) (page_size : Int) (page_token : String) : List User :=
  let page_num := decodePageToken page_token
  let start := (page_num * usizeOfI32 page_size) % 2 ^ 64
  (((d.users.map Prod.snd).drop start).take (usizeOfI32 page_size))

/-- Storage::count_users. -/
def count_users (d : StorageData) : Nat := d.users.length

/-- Storage::count_user_tasks. -/
def count_user_tasks (d : StorageData) (user_id : String) : Nat :=
  ((alookup d.user_tasks user_id).getD []).length

/-- Storage::create_task: insert the task; when assigned_to is non-empty,
push the task id onto that user's user_tasks entry (created on demand). -/
def create_task (d : StorageData) (task : Task) : StorageData :=
  let d' := { d with tasks := ainsert d.tasks task.id task }
  if task.assigned_to != "" then
    { d' with
      user_tasks := ainsert d'.user_tasks task.assigned_to
        (((alookup d'.user_tasks task.assigned_to).getD []) ++ [task.id]) }
  else d'

/-- Storage::get_task. -/
def get_task (d : StorageData) (task_id : String) : Option Task :=
  alookup d.tasks task_id

/-- One arm of the field-mask match in Storage::patch_task.  Note the
mask key for the assignee is the camelCase "assignedTo" while the others
are snake_case, and that no arm touches updated_at. -/
def applyMaskField (existing patch : Task) (field : String) : Task :=
  match field with
  | "title" => { existing with title := patch.title }
  | "description" => { existing with description := patch.description }
  | "status" => { existing with status := patch.status }
  | "priority" => { existing with priority := patch.priority }
  | "tags" => { existing with tags := patch.tags }
  | "assignedTo" => { existing with assigned_to := patch.assigned_to }
  | "due_date" => { existing with due_date := patch.due_date }
  | "metrics" => { existing with metrics := patch.metrics }
  | "comments" => { existing with comments := patch.comments }
  | "attachments" => { existing with attachments := patch.attachments }
  | _ => existing

/-- Storage::patch_task: NotFound on a missing id, otherwise copy each
masked field from the patch onto the stored task, ignoring unknown
names.  updated_at is never copied (it is not a recognized mask arm). -/
def patch_task (d : StorageData) (task_id : String) (patch : Task)
    (mask : List String) : Except String StorageData :=
  match alookup d.tasks task_id with
  | none => .error "Task not found"
  | some existing =>
      let updated := mask.foldl (fun ex f => applyMaskField ex patch f) existing
      .ok { d with tasks := ainsert d.tasks task_id updated }

/-- Storage::update_task: an upsert on the tasks map only; user_tasks is
not maintained. -/
def update_task (d : StorageData) (task : Task) : StorageData :=
  { d with tasks := ainsert d.tasks task.id task }

/-- Storage::delete_task: remove the task and, when it was assigned,
retain-filter its id out of that user's user_tasks list. -/
def delete_task (d : StorageData) (task_id : String) : Bool × StorageData :=
  match alookup d.tasks task_id with
  | some task =>
      let d' := { d with tasks := aerase d.tasks task_id }
      if task.assigned_to != "" then
        match alookup d'.user_tasks task.assigned_to with
        | some uts =>
            let uts' := uts.filter (fun id => id != task_id)
            (true, { d' with user_tasks := ainsert d'.user_tasks task.assigned_to uts' })
        | none => (true, d')
      else (true, d')
  | none => (false, d)

/-- Storage::list_tasks: same pagination arithmetic as list_users. -/
def list_tasks (d : StorageData) (page_size : Int) (page_token : String) : List Task :=
  let page_num := decodePageToken page_token
  let start := (page_num * usizeOfI32 page_size) % 2 ^ 64
  (((d.tasks.map Prod.snd).drop start).take (usizeOfI32 page_size))

/-- Storage::count_tasks. -/
def count_tasks (d : StorageData) : Nat := d.tasks.length

/-- The overdue filter in Storage::count_overdue_tasks: a due date
strictly earlier than now and a status other than 4 (completed). -/
def isOverdue (task : Task) (now_timestamp : Int) : Bool :=
  match task.due_date with
  | some due_date => decide (due_date.seconds < now_timestamp) && !(task.status == 4)
  | none => false

/-- Storage::count_overdue_tasks, with the wall clock passed explicitly
as seconds since the epoch. -/
def count_overdue_tasks (d : StorageData) (now_timestamp : Int) : Nat :=
  ((d.tasks.map Prod.snd).filter (fun t => isOverdue t now_timestamp)).length

end Storage

/-! ## Service layer (user_service.rs, task_service.rs)

The tonic services are embedded as pure functions.  The ambient wall
clock and the freshly generated UUID are passed as explicit arguments;
errors are the tonic::Status codes the handlers construct. -/

/-- The tonic::Status codes built by the two services. -/
inductive GStatus where
  | alreadyExists
  | notFound
  | invalidArgument
  | unauthenticated
  | internalErr
deriving DecidableEq, Repr

/-- CreateUserRequest message (fields the handler reads). -/
structure CreateUserRequest where
  username : String
  email : String
  full_name : String
  role : Int
deriving DecidableEq, Repr

/-- CreateUserResponse message. -/
structure CreateUserResponse where
  user : Option User
  success : Bool
  message : String
deriving DecidableEq, Repr

/-- UpdateUserResponse message. -/
structure UpdateUserResponse where
  user : Option User
  success : Bool
  message : String
deriving DecidableEq, Repr

/-- ListUsersResponse message. -/
structure ListUsersResponse where
  users : List User
  next_page_token : String
  total_count : Nat
deriving DecidableEq, Repr

/-- CreateTaskRequest message (fields the handler reads). -/
structure CreateTaskRequest where
  title : String
  description : String
  priority : Int
  tags : List String
  assigned_to : String
  due_date : Option Timestamp
deriving DecidableEq, Repr

/-- CreateTaskResponse message. -/
structure CreateTaskResponse where
  task : Option Task
  success : Bool
  message : String
deriving DecidableEq, Repr

/-- UpdateTaskResponse message. -/
structure UpdateTaskResponse where
  task : Option Task
  success : Bool
  message : String
deriving DecidableEq, Repr

/-- ListTasksResponse message. -/
structure ListTasksResponse where
  tasks : List Task
  next_page_token : String
  total_count : Nat
deriving DecidableEq, Repr

/-- One inbound chunk of UploadTaskAttachmentRequest; chunk bytes are
modelled as naturals below 256. -/
structure UploadTaskAttachmentRequest where
  task_id : String
  filename : String
  content_type : String
  chunk : List Nat
deriving DecidableEq, Repr

/-- UploadTaskAttachmentResponse message. -/
structure UploadTaskAttachmentResponse where
  attachment_id : String
  filename : String
  file_size : Nat
  success : Bool
  message : String
deriving DecidableEq, Repr

namespace UserService

/-- UserServiceImpl::create_user: reject when the email index resolves
the requested email to an existing user, else build the new user with
fresh id, current timestamps and default preferences/profile, and insert
it through Storage::create_user. -/
def create_user (d : StorageData) (req : CreateUserRequest) (new_id : String)
    (now : Timestamp) : Except GStatus CreateUserResponse × StorageData :=
  if (Storage.get_user_by_email d req.email).isSome then
    (.error .alreadyExists, d)
  else
    let user : User :=
      { id := new_id
        username := req.username
        email := req.email
        full_name := req.full_name
        role := req.role
        is_active := true
        permissions := []
        status := UserStatus.active
        created_at := some now
        updated_at := some now
        last_login := none
        preferences := some
          { theme := "light", language := "en", timezone := "UTC",
            notifications_enabled := true, email_notifications := true }
        profile := some
          { avatar_url := "", bio := "", department := "", phone := "",
            location := "" } }
    (.ok { user := some user, success := true,
           message := "User created successfully" },
     Storage.create_user d user)

/-- UserServiceImpl::update_user: requires a user body, overwrites its id
with the request id, stamps updated_at, and upserts through
Storage::update_user (no index maintenance). -/
def update_user (d : StorageData) (id : String) (body : Option User)
    (now : Timestamp) : Except GStatus UpdateUserResponse × StorageData :=
  match body with
  | some user0 =>
      let user := { user0 with id := id, updated_at := some now }
      (.ok { user := some user, success := true,
             message := "User updated successfully" },
       Storage.update_user d user)
  | none => (.error .invalidArgument, d)

/-- UserServiceImpl::delete_user. -/
def delete_user (d : StorageData) (id : String) : Bool × StorageData :=
  Storage.delete_user d id

/-- UserServiceImpl::list_users: the continuation token is emitted when
the batch fills the page, and its page number comes from parsing the RAW
incoming token as u32 (not the stripped "page_" suffix). -/
def list_users (d : StorageData) (page_size : Int) (page_token : String) :
    ListUsersResponse :=
  let users := Storage.list_users d page_size page_token
  { users := users
    next_page_token :=
      if users.length ≥ usizeOfI32 page_size then
        "page_" ++ toString (parseRawTokenU32 page_token + 1)
      else ""
    total_count := Storage.count_users d }

end UserService

namespace TaskService

/-- TaskServiceImpl::create_task: fresh id, status Todo, request fields
copied through (including the due date), zeroed metrics.  The source
samples the clock twice for created_at/updated_at; both samples are
modelled as the one injected instant. -/
def create_task (d : StorageData) (req : CreateTaskRequest) (new_id : String)
    (now : Timestamp) : CreateTaskResponse × StorageData :=
  let task : Task :=
    { id := new_id
      title := req.title
      description := req.description
      status := TaskStatus.todo
      priority := req.priority
      tags := req.tags
      assigned_to := req.assigned_to
      created_at := some now
      updated_at := some now
      due_date := req.due_date
      metrics := some { estimated_hours := 0, actual_hours := 0,
                        completion_percentage := 0 }
      comments := []
      attachments := [] }
  ({ task := some task, success := true,
     message := "Task created successfully" },
   Storage.create_task d task)

/-- TaskServiceImpl::update_task: requires a task body, overwrites its id
with the request id, stamps updated_at on the PATCH COPY, applies
Storage::patch_task with the request mask, and echoes the patch copy back
as "the updated task". -/
def update_task (d : StorageData) (id : String) (body : Option Task)
    (update_mask : List String) (now : Timestamp) :
    Except GStatus UpdateTaskResponse × StorageData :=
  match body with
  | some patch0 =>
      let patch := { patch0 with id := id, updated_at := some now }
      match Storage.patch_task d id patch update_mask with
      | .ok d' =>
          (.ok { task := some patch, success := true,
                 message := "Task updated successfully" }, d')
      | .error _ => (.error .notFound, d)
  | none => (.error .invalidArgument, d)

/-- TaskServiceImpl::list_tasks: same continuation-token computation as
UserService::list_users. -/
def list_tasks (d : StorageData) (page_size : Int) (page_token : String) :
    ListTasksResponse :=
  let tasks := Storage.list_tasks d page_size page_token
  { tasks := tasks
    next_page_token :=
      if tasks.length ≥ usizeOfI32 page_size then
        "page_" ++ toString (parseRawTokenU32 page_token + 1)
      else ""
    total_count := Storage.count_tasks d }

/-- The accumulator of the upload_task_attachment receive loop. -/
structure UploadState where
  file_data : List Nat
  filename : String
  task_id : String
  content_type : String
deriving DecidableEq, Repr

/-- Initial accumulator: empty buffers and empty metadata. -/
def uploadInit : UploadState :=
  { file_data := [], filename := "", task_id := "", content_type := "" }

/-- One iteration of the upload_task_attachment loop: the task id is only
taken when none has been taken yet; filename and content type are
overwritten by EVERY chunk that carries a non-empty value; payload bytes
are appended in arrival order. -/
def uploadStep (st : UploadState) (req : UploadTaskAttachmentRequest) : UploadState :=
  let st1 := if req.task_id != "" && st.task_id == "" then
    { st with task_id := req.task_id } else st
  let st2 := if req.filename != "" then { st1 with filename := req.filename } else st1
  let st3 := if req.content_type != "" then
    { st2 with content_type := req.content_type } else st2
  { st3 with file_data := st3.file_data ++ req.chunk }

/-- The whole receive loop of upload_task_attachment over an inbound
chunk sequence. -/
def upload_fold (chunks : List UploadTaskAttachmentRequest) : UploadState :=
  chunks.foldl uploadStep uploadInit

/-- TaskServiceImpl::upload_task_attachment: fold the chunk stream, then
finalize once: touch the destination task's updated_at when it exists and
answer with the accumulated metadata and total byte length. -/
def upload_task_attachment (d : StorageData)
    (chunks : List UploadTaskAttachmentRequest) (attachment_id : String)
    (now : Timestamp) : UploadTaskAttachmentResponse × StorageData :=
  let st := upload_fold chunks
  let d' := match Storage.get_task d st.task_id with
    | some task => Storage.update_task d { task with updated_at := some now }
    | none => d
  ({ attachment_id := attachment_id
     filename := st.filename
     file_size := st.file_data.length
     success := true
     message := "Attachment uploaded successfully" }, d')

end TaskService

/-! ## Spec-side definitions

These follow the words of the specification (not the code) and are used
to compare code behaviour against claimed behaviour. -/

/-- A non-negative decimal integer literal: an optional leading plus
sign, then a non-empty run of ASCII digits. -/
def specDigitsOk (cs : List Char) : Bool :=
  match cs with
  | [] => false
  | c :: rest =>
      if c = '+' then !rest.isEmpty && rest.all Char.isDigit
      else (c :: rest).all Char.isDigit

/-- Per the spec's pagination wording: a well-formed token is the prefix
"page_" followed by a non-negative decimal integer. -/
def specTokenWellFormed (tok : String) : Bool :=
  match tok.data with
  | 'p' :: 'a' :: 'g' :: 'e' :: '_' :: rest => specDigitsOk rest
  | _ => false

/-- The spec's slice items[start : start+count] of a collection in
iteration order. -/
def specSlice {α : Type} (items : List α) (start count : Nat) : List α :=
  (items.take (start + count)).drop start

/-- The value carried by the first element of a sequence in which the
field is non-empty (empty when there is none) — the spec's rule for
chunked-upload metadata. -/
def firstNonEmpty (l : List String) : String :=
  (l.filter (fun s => s != "")).headD ""

/-- The value carried by the last element in which the field is
non-empty (empty when there is none). -/
def lastNonEmpty (l : List String) : String :=
  (l.filter (fun s => s != "")).getLastD ""

/-- One reference check of the user_tasks coherence invariant: the task
id exists in the task map and its assigned_to equals the index key. -/
def taskRef (tasks : List (String × Task)) (u : String) (id : String) : Bool :=
  match alookup tasks id with
  | some t => t.assigned_to == u
  | none => false

/-- The claim's user_tasks coherence invariant: every identifier
appearing in user_tasks[u] exists in the task map and that task's
assigned_to equals u. -/
def userTasksCoherent (d : StorageData) : Bool :=
  d.user_tasks.all (fun e => e.2.all (fun id => taskRef d.tasks e.1 id))

/-- Auxiliary strengthening used to push the coherence invariant through
delete_task: the empty-string key (the "unassigned" pseudo-user, which
create_task never pushes to) indexes no task ids. -/
def noEmptyKeyRefs (d : StorageData) : Bool :=
  d.user_tasks.all (fun e => e.1 != "" || e.2.isEmpty)

/-! ## Concrete example data for the counterexamples -/

/-- A minimal task record for concrete stores. -/
def mkSimpleTask (id title : String) : Task :=
  { id := id, title := title, description := "", status := 1, priority := 1,
    tags := [], assigned_to := "", created_at := none, updated_at := none,
    due_date := none, metrics := none, comments := [], attachments := [] }

/-- A minimal user record for concrete stores. -/
def mkSimpleUser (id username : String) : User :=
  { id := id, username := username, email := username ++ "@x",
    full_name := username, role := 1, is_active := true, permissions := [],
    status := 1, created_at := none, updated_at := none, last_login := none,
    preferences := none, profile := none }

/-- A reachable store: create_user for alice (email a@x) at time 50. -/
def exStoreAfterCreate : StorageData :=
  (UserService.create_user StorageData.default
    { username := "alice", email := "a@x", full_name := "Alice A", role := 1 }
    "u1" ⟨50, 0⟩).2

/-- The full user body sent by the wire update that changes alice's email
to b@x (update_user replaces the whole record). -/
def exUpdateBody : User :=
  { id := "whatever", username := "alice", email := "b@x",
    full_name := "Alice A", role := 1, is_active := true, permissions := [],
    status := 1, created_at := none, updated_at := none, last_login := none,
    preferences := none, profile := none }

/-- The reachable store after the service update_user call that changes
alice's email to b@x: the email index still maps a@x to u1. -/
def exStoreStaleEmail : StorageData :=
  (UserService.update_user exStoreAfterCreate "u1" (some exUpdateBody) ⟨60, 0⟩).2

/-- The create request re-using alice's current email b@x. -/
def exDupEmailReq : CreateUserRequest :=
  { username := "bob", email := "b@x", full_name := "Bob B", role := 1 }

/-- The store for the patch-isolation claims: one task t1 with status
Todo and updated_at at time 100. -/
def exPatchStore : StorageData :=
  { users := [], users_by_email := [], users_by_username := [],
    tasks := [("t1", { mkSimpleTask "t1" "Title" with
                        updated_at := some ⟨100, 0⟩ })],
    user_tasks := [] }

/-- The wire patch body: status Done, everything else default-ish. -/
def exPatchBody : Task :=
  { mkSimpleTask "ignored" "patch title" with status := TaskStatus.done }

/-- A store holding four users and four tasks for the pagination
counterexamples. -/
def exStore4 : StorageData :=
  { users := [("u1", mkSimpleUser "u1" "a"), ("u2", mkSimpleUser "u2" "b"),
              ("u3", mkSimpleUser "u3" "c"), ("u4", mkSimpleUser "u4" "d")],
    users_by_email := [], users_by_username := [],
    tasks := [("t1", mkSimpleTask "t1" "A"), ("t2", mkSimpleTask "t2" "B"),
              ("t3", mkSimpleTask "t3" "C"), ("t4", mkSimpleTask "t4" "D")],
    user_tasks := [] }

/-- A reachable store with one task t1 assigned to user u (built through
Storage::create_task from the empty store). -/
def exAssignedStore : StorageData :=
  Storage.create_task StorageData.default
    { mkSimpleTask "t1" "T" with assigned_to := "u" }

/-- The patch body reassigning to user v. -/
def exReassignBody : Task :=
  { mkSimpleTask "t1" "T" with assigned_to := "v" }

/-- A task with a 1970 due date (seconds 0) and status Todo, for the
overdue-count scenario. -/
def exOverdueTask : Task :=
  { mkSimpleTask "t1" "T" with due_date := some ⟨0, 0⟩ }

/-- The store holding just that overdue task, built through create_task. -/
def exOverdueStore : StorageData :=
  Storage.create_task StorageData.default exOverdueTask

/-- Same store after the status of t1 has been patched to Done. -/
def exOverduePatched : StorageData :=
  { users := [], users_by_email := [], users_by_username := [],
    tasks := [("t1", { exOverdueTask with status := TaskStatus.done })],
    user_tasks := [] }

/-- The two-chunk upload in which the first chunk carries filename a.txt
and content type text/plain and the second carries b.txt and text/html. -/
def exChunks : List UploadTaskAttachmentRequest :=
  [{ task_id := "t1", filename := "a.txt", content_type := "text/plain",
     chunk := [1, 2] },
   { task_id := "", filename := "b.txt", content_type := "text/html",
     chunk := [3] }]

/-- Keys of an association list are pairwise distinct: the state space of
a real HashMap, whose keys cannot repeat.  All storage operations
preserve it. -/
def NodupKeys {α : Type} (l : List (String × α)) : Prop :=
  (l.map Prod.fst).Nodup

instance {α : Type} (l : List (String × α)) : Decidable (NodupKeys l) :=
  inferInstanceAs (Decidable ((l.map Prod.fst).Nodup))

/-- The user_tasks coherence invariant as a proposition over the two
collections it relates (see userTasksCoherent for the executable form). -/
def coherentP (tasks : List (String × Task)) (uts : List (String × List String)) : Prop :=
  ∀ e ∈ uts, ∀ id ∈ e.2, ∃ t, alookup tasks id = some t ∧ t.assigned_to = e.1

/-- A concrete coherent store for the delete witness: alice exists in the
primary map, both secondary indexes and user_tasks. -/
def exDeleteStore : StorageData :=
  { users := [("u1", mkSimpleUser "u1" "alice")],
    users_by_email := [("alice@x", "u1")],
    users_by_username := [("alice", "u1")],
    tasks := [], user_tasks := [("u1", [])] }


/-- Create-task request carrying a pre-epoch due date (seconds = -1),
exactly what arrives when a client sends a due date before 1970. -/
def exBadDueReq : CreateTaskRequest :=
  { title := "old", description := "", priority := 1, tags := [],
    assigned_to := "", due_date := some { seconds := -1, nanos := 0 } }

/-- Store reached by creating one task with the pre-epoch due date on an
empty store (service clock at the epoch). -/
def exBadStore : StorageData :=
  (TaskService.create_task StorageData.default exBadDueReq "t1"
    { seconds := 0, nanos := 0 }).2

/-- A task whose timestamps exercise the RFC3339 formatter's fraction
shapes: no fraction, millisecond fraction, and the top of the
representable range with full nanoseconds. -/
def exCodecTask : Task :=
  { mkSimpleTask "t1" "codec" with
      created_at := some { seconds := 0, nanos := 0 },
      updated_at := some { seconds := 1700000000, nanos := 123000000 },
      due_date := some { seconds := 253402300799, nanos := 999999999 },
      comments := [{ id := "c1", author_id := "u1", content := "hi",
                     created_at := some { seconds := 86399, nanos := 5 } }] }

/-- A user with one in-range timestamp. -/
def exCodecUser : User :=
  { mkSimpleUser "u1" "alice" with
      created_at := some { seconds := 951868800, nanos := 1000 } }

/-- A populated store with representable timestamps everywhere, for the
round-trip witness. -/
def exCodecStore : StorageData :=
  { users := [("u1", exCodecUser)],
    users_by_email := [("alice@x", "u1")],
    users_by_username := [("alice", "u1")],
    tasks := [("t1", exCodecTask)],
    user_tasks := [("u1", ["t1"])] }

/-! ## Theorems -/

/-! ### RFC3339 and snapshot codec lemmas -/

theorem yoeNum_mono_step (x : Nat) : yoeNum x ≤ yoeNum (x + 1) := by
  unfold yoeNum
  omega


theorem yoeNum_mono {a b : Nat} (h : a ≤ b) : yoeNum a ≤ yoeNum b := by
  induction b with
  | zero =>
      rw [Nat.le_zero.mp h]
  | succ n ih =>
      by_cases hab : a = n + 1
      · rw [hab]
      · exact le_trans (ih (by omega)) (yoeNum_mono_step n)


set_option maxHeartbeats 1000000 in
theorem endpoints_ok : checkBelow yoeEndpointsOk 10 0 400 = true := by decide


set_option maxHeartbeats 1000000 in
theorem months_ok : checkBelow monthDayOk 10 0 366 = true := by decide


theorem checkBelow_sound (f : Nat → Bool) :
    ∀ (fuel lo size : Nat), checkBelow f fuel lo size = true →
      ∀ i, i < size → f (lo + i) = true
  | 0, lo, size, h, i, hi => by
      simp [checkBelow] at h
      omega
  | fuel + 1, lo, size, h, i, hi => by
      rw [checkBelow] at h
      by_cases h0 : size = 0
      · omega
      · rw [if_neg h0] at h
        by_cases h1 : size = 1
        · rw [if_pos h1] at h
          have hi0 : i = 0 := by omega
          subst hi0
          simpa using h
        · rw [if_neg h1, Bool.and_eq_true] at h
          by_cases hlt : i < size / 2
          · exact checkBelow_sound f fuel lo (size / 2) h.1 i hlt
          · have hrec := checkBelow_sound f fuel (lo + size / 2)
              (size - size / 2) h.2 (i - size / 2) (by omega)
            have harg : lo + size / 2 + (i - size / 2) = lo + i := by omega
            rwa [harg] at hrec


theorem yearStart_step (yoe : Nat) (h : yoe ≤ 399) :
    yearStartOfEra yoe + yearLen yoe =
      (if yoe = 399 then 146097 else yearStartOfEra (yoe + 1)) ∧
    365 ≤ yearLen yoe ∧ yearLen yoe ≤ 366 := by
  unfold yearLen yearStartOfEra
  split_ifs with h399
  · subst h399
    omega
  · omega


theorem coverage : ∀ doe, doe < 146097 → ∃ yoe, yoe ≤ 399 ∧
    yearStartOfEra yoe ≤ doe ∧ doe < yearStartOfEra yoe + yearLen yoe := by
  intro doe
  induction doe with
  | zero =>
      intro _
      refine ⟨0, by omega, by simp [yearStartOfEra], ?_⟩
      have := yearStart_step 0 (by omega)
      omega
  | succ n ih =>
      intro hn
      obtain ⟨yoe, h1, h2, h3⟩ := ih (by omega)
      by_cases hend : n + 1 < yearStartOfEra yoe + yearLen yoe
      · exact ⟨yoe, h1, by omega, hend⟩
      · have hstep := yearStart_step yoe h1
        by_cases h399 : yoe = 399
        · subst h399
          rw [if_pos rfl] at hstep
          omega
        · rw [if_neg h399] at hstep
          have hstep2 := yearStart_step (yoe + 1) (by omega)
          exact ⟨yoe + 1, by omega, by omega, by omega⟩


theorem yoe_ident (doe yoe : Nat) (h399 : yoe ≤ 399)
    (hlo : yearStartOfEra yoe ≤ doe)
    (hhi : doe < yearStartOfEra yoe + yearLen yoe) :
    yoeOfDoe doe = yoe := by
  have hlen := yearStart_step yoe h399
  have hepts := checkBelow_sound yoeEndpointsOk 10 0 400 endpoints_ok yoe
    (by omega)
  rw [Nat.zero_add] at hepts
  unfold yoeEndpointsOk at hepts
  rw [Bool.and_eq_true, beq_iff_eq, beq_iff_eq] at hepts
  have hmono1 : yoeOfDoe (yearStartOfEra yoe) ≤ yoeOfDoe doe :=
    Nat.div_le_div_right (yoeNum_mono hlo)
  have hmono2 : yoeOfDoe doe ≤
      yoeOfDoe (yearStartOfEra yoe + yearLen yoe - 1) :=
    Nat.div_le_div_right (yoeNum_mono (by omega))
  omega


theorem monthsSpec (doy mp m d : Nat) (h : doy ≤ 365)
    (hmp : mp = (5 * doy + 2) / 153)
    (hm : m = if mp < 10 then mp + 3 else mp - 9)
    (hd : d = doy - (153 * mp + 2) / 5 + 1) :
    (153 * (if m > 2 then m - 3 else m + 9) + 2) / 5 + d - 1 = doy ∧
    1 ≤ m ∧ m ≤ 12 ∧ 1 ≤ d ∧ d ≤ 31 ∧ ((m ≤ 2) ↔ 306 ≤ doy) := by
  have hchk := checkBelow_sound monthDayOk 10 0 366 months_ok doy (by omega)
  rw [Nat.zero_add] at hchk
  unfold monthDayOk at hchk
  simp only [Bool.and_eq_true, beq_iff_eq, decide_eq_true_eq,
    decide_eq_decide] at hchk
  subst hmp
  subst hm
  subst hd
  exact ⟨hchk.1.1.1.1.1, hchk.1.1.1.1.2, hchk.1.1.1.2, hchk.1.1.2,
    hchk.1.2, hchk.2⟩


set_option maxHeartbeats 1000000 in
theorem civil_inverse (z : Nat) (hz : z ≤ 2932896) :
    daysFromCivil (civilFromDays z).1 (civilFromDays z).2.1
      (civilFromDays z).2.2 = z ∧
    1970 ≤ (civilFromDays z).1 ∧ (civilFromDays z).1 ≤ 9999 ∧
    1 ≤ (civilFromDays z).2.1 ∧ (civilFromDays z).2.1 ≤ 12 ∧
    1 ≤ (civilFromDays z).2.2 ∧ (civilFromDays z).2.2 ≤ 31 := by
  have hdoe_lt : (z + 719468) % 146097 < 146097 := Nat.mod_lt _ (by norm_num)
  obtain ⟨yoe, h399, hlo, hhi⟩ := coverage _ hdoe_lt
  have hid := yoe_ident _ _ h399 hlo hhi
  have hstepY := yearStart_step yoe h399
  have hdoy365 : (z + 719468) % 146097 - yearStartOfEra yoe ≤ 365 := by omega
  have hB := monthsSpec ((z + 719468) % 146097 - yearStartOfEra yoe) _ _ _
    hdoy365 rfl rfl rfl
  simp only [civilFromDays, daysFromCivil, hid]
  simp only [yearStartOfEra] at hlo hhi hB ⊢
  generalize hg : (z + 719468) % 146097 -
    (365 * yoe + yoe / 4 - yoe / 100) = doyv at hB ⊢
  have hdoyv365 : doyv ≤ 365 := by omega
  set mpv := (5 * doyv + 2) / 153 with hmpv
  have hmp11 : mpv ≤ 11 := by omega
  set mv := (if mpv < 10 then mpv + 3 else mpv - 9) with hmv
  have hmback : (if mv > 2 then mv - 3 else mv + 9) = mpv := by
    rw [hmv]
    split_ifs <;> omega
  rw [hmback] at hB ⊢
  obtain ⟨hB1, hBm1, hBm2, hBd1, hBd2, hBiff⟩ := hB
  have h2 : ((z + 719468) / 146097 * 400 + yoe) / 400 =
      (z + 719468) / 146097 := by omega
  have h3 : ((z + 719468) / 146097 * 400 + yoe) % 400 = yoe := by omega
  have hylo : ¬ 306 ≤ doyv → 1970 ≤ (z + 719468) / 146097 * 400 + yoe := by
    intro hnd
    by_cases h4 : (z + 719468) / 146097 = 4
    · by_cases h369 : yoe ≤ 369
      · exfalso
        have h369e : yoe = 369 := by omega
        omega
      · omega
    · omega
  have hyhi : 306 ≤ doyv → (z + 719468) / 146097 * 400 + yoe + 1 ≤ 9999 := by
    intro hd6
    by_cases h24 : (z + 719468) / 146097 = 24
    · by_cases h399y : yoe = 399
      · omega
      · omega
    · omega
  by_cases hm2 : mv ≤ 2
  · have h306 := hBiff.mp hm2
    have hup := hyhi h306
    simp only [if_pos hm2]
    refine ⟨?_, ?_, ?_, ?_, ?_, ?_, ?_⟩ <;>
      first
        | ((try simp only [Nat.add_sub_cancel])
           rw [h2, h3, hB1]
           omega)
        | omega
  · have h305 : ¬ 306 ≤ doyv := fun hh => hm2 (hBiff.mpr hh)
    have hlo2 := hylo h305
    simp only [if_neg hm2]
    refine ⟨?_, ?_, ?_, ?_, ?_, ?_, ?_⟩ <;>
      first
        | ((try simp only [Nat.add_sub_cancel])
           rw [h2, h3, hB1]
           omega)
        | omega


theorem readDigit_natDigitChar (d : Nat) (h : d < 10) :
    readDigit (natDigitChar d) = some d := by
  interval_cases d <;> decide


theorem padDigits_head_lt (k n : Nat) (h : n < 10 ^ (k + 1)) :
    n / 10 ^ k < 10 := by
  rw [pow_succ] at h
  exact Nat.div_lt_of_lt_mul h


theorem readFixedAux_pad (k : Nat) :
    ∀ (n acc : Nat) (rest : List Char), n < 10 ^ k →
      readFixedAux k acc (padChars k n ++ rest) = some (acc * 10 ^ k + n, rest) := by
  induction k with
  | zero =>
      intro n acc rest h
      have hn : n = 0 := by omega
      subst hn
      simp [padChars, padDigits, readFixedAux]
  | succ k ih =>
      intro n acc rest h
      have hd := padDigits_head_lt k n h
      show readFixedAux (k + 1) acc
        (natDigitChar (n / 10 ^ k) :: ((padDigits k (n % 10 ^ k)).map natDigitChar ++ rest)) =
        some (acc * 10 ^ (k + 1) + n, rest)
      rw [show readFixedAux (k + 1) acc
          (natDigitChar (n / 10 ^ k) :: ((padDigits k (n % 10 ^ k)).map natDigitChar ++ rest)) =
          (match readDigit (natDigitChar (n / 10 ^ k)) with
           | some dv => readFixedAux k (acc * 10 + dv)
               ((padDigits k (n % 10 ^ k)).map natDigitChar ++ rest)
           | none => none) from rfl,
        readDigit_natDigitChar _ hd]
      show readFixedAux k (acc * 10 + n / 10 ^ k)
          (padChars k (n % 10 ^ k) ++ rest) = _
      rw [ih (n % 10 ^ k) _ rest (Nat.mod_lt _ (Nat.pos_pow_of_pos k (by norm_num)))]
      have hsplit : (acc * 10 + n / 10 ^ k) * 10 ^ k + n % 10 ^ k =
          acc * 10 ^ (k + 1) + n := by
        have hdm := Nat.div_add_mod n (10 ^ k)
        have : (acc * 10 + n / 10 ^ k) * 10 ^ k + n % 10 ^ k =
            acc * (10 ^ k * 10) + (10 ^ k * (n / 10 ^ k) + n % 10 ^ k) := by ring
        rw [this, hdm, ← pow_succ]
      rw [hsplit]


theorem readFixedNat_pad (k n : Nat) (rest : List Char) (h : n < 10 ^ k) :
    readFixedNat k (padChars k n ++ rest) = some (n, rest) := by
  rw [readFixedNat, readFixedAux_pad k n 0 rest h]
  simp


theorem padDigits_length (k : Nat) : ∀ n, (padDigits k n).length = k := by
  induction k with
  | zero => intro n; rfl
  | succ k ih => intro n; simp [padDigits, ih]


theorem padDigits_lt (k : Nat) : ∀ n, n < 10 ^ k → ∀ d ∈ padDigits k n, d < 10 := by
  induction k with
  | zero => intro n _ d hd; simp [padDigits] at hd
  | succ k ih =>
      intro n hn d hd
      simp only [padDigits, List.mem_cons] at hd
      rcases hd with rfl | hd
      · exact padDigits_head_lt k n hn
      · exact ih (n % 10 ^ k) (Nat.mod_lt _ (by positivity)) d hd


theorem digitsVal_aux (k : Nat) : ∀ n a, n < 10 ^ k →
    (padDigits k n).foldl (fun acc dv => acc * 10 + dv) a = a * 10 ^ k + n := by
  induction k with
  | zero =>
      intro n a hn
      simp only [padDigits, List.foldl_nil, pow_zero]
      omega
  | succ k ih =>
      intro n a _
      simp only [padDigits, List.foldl_cons]
      rw [ih (n % 10 ^ k) _ (Nat.mod_lt _ (by positivity))]
      have hdm := Nat.div_add_mod n (10 ^ k)
      calc (a * 10 + n / 10 ^ k) * 10 ^ k + n % 10 ^ k
          = a * (10 ^ k * 10) + (10 ^ k * (n / 10 ^ k) + n % 10 ^ k) := by ring
        _ = a * 10 ^ (k + 1) + n := by rw [hdm, pow_succ]


theorem digitsVal_pad (k n : Nat) (h : n < 10 ^ k) :
    digitsVal (padDigits k n) = n := by
  rw [digitsVal, digitsVal_aux k n 0 h]
  omega


theorem collectDigits_digits (ds : List Nat) (c : Char) (rest : List Char)
    (hds : ∀ d ∈ ds, d < 10) (hc : readDigit c = none) :
    collectDigits (ds.map natDigitChar ++ c :: rest) = (ds, c :: rest) := by
  induction ds with
  | nil => simp [collectDigits, hc]
  | cons d ds ih =>
      have hd : d < 10 := hds d (by simp)
      simp only [List.map_cons, List.cons_append, collectDigits,
        readDigit_natDigitChar d hd, List.append_eq]
      rw [ih (fun x hx => hds x (by simp [hx]))]


theorem readDigit_plus : readDigit '+' = none := by decide


theorem readFrac_pad (k m : Nat) (hk : 0 < k) (hk9 : k ≤ 9) (hm : m < 10 ^ k)
    (rest : List Char) :
    readFrac ('.' :: (padChars k m ++ '+' :: rest)) =
      some (m * 10 ^ (9 - k), '+' :: rest) := by
  simp only [readFrac, padChars]
  rw [collectDigits_digits (padDigits k m) '+' rest (padDigits_lt k m hm)
    readDigit_plus]
  have hlen : (padDigits k m).length = k := padDigits_length k m
  have hne : (padDigits k m).isEmpty = false := by
    cases h : padDigits k m with
    | nil => rw [h] at hlen; simp at hlen; omega
    | cons a l => rfl
  simp only [hne, Bool.false_eq_true, if_false, hlen]
  rw [List.take_of_length_le (by omega), digitsVal_pad k m hm,
    Nat.min_eq_left hk9]


theorem readFrac_fracChars (frac : Nat) (h : frac < 1000000000)
    (rest : List Char) :
    readFrac (fracChars frac ++ '+' :: rest) = some (frac, '+' :: rest) := by
  by_cases h0 : frac = 0
  · subst h0
    simp [fracChars, readFrac]
  · by_cases h6 : frac % 1000000 = 0
    · have he : fracChars frac = '.' :: padChars 3 (frac / 1000000) := by
        simp [fracChars, h0, h6]
      rw [he, List.cons_append,
        readFrac_pad 3 (frac / 1000000) (by omega) (by omega) (by omega) rest]
      congr 2
      omega
    · by_cases h3 : frac % 1000 = 0
      · have he : fracChars frac = '.' :: padChars 6 (frac / 1000) := by
          simp [fracChars, h0, h6, h3]
        rw [he, List.cons_append,
          readFrac_pad 6 (frac / 1000) (by omega) (by omega) (by omega) rest]
        congr 2
        omega
      · have he : fracChars frac = '.' :: padChars 9 frac := by
          simp [fracChars, h0, h6, h3]
        rw [he, List.cons_append,
          readFrac_pad 9 frac (by omega) (by omega) (by omega) rest]
        congr 2
        omega


theorem readOffset_utc (rest : List Char) :
    readOffset ('+' :: '0' :: '0' :: ':' :: '0' :: '0' :: rest) =
      some (0, rest) := by
  simp [readOffset, readFixedNat, readFixedAux, readDigit, expectChar]


theorem expectChar_self (c : Char) (rest : List Char) :
    expectChar c (c :: rest) = some rest := by
  simp [expectChar]


theorem expectSep_T (rest : List Char) : expectSep ('T' :: rest) = some rest := by
  simp [expectSep]


theorem tsDeserializeChars_format (y mo dy hh mi ss frac : Nat)
    (hy1 : 1 ≤ y) (hy2 : y ≤ 9999) (hm1 : 1 ≤ mo) (hm2 : mo ≤ 12)
    (hd1 : 1 ≤ dy) (hd2 : dy ≤ 31) (hhh : hh ≤ 23) (hmi : mi ≤ 59)
    (hss : ss ≤ 59) (hfrac : frac < 1000000000) :
    tsDeserializeChars (padChars 4 y ++ '-' :: (padChars 2 mo ++ '-' ::
      (padChars 2 dy ++ 'T' :: (padChars 2 hh ++ ':' :: (padChars 2 mi ++
      ':' :: (padChars 2 ss ++ (fracChars frac ++
      ['+', '0', '0', ':', '0', '0']))))))) =
      some { seconds :=
               ((daysFromCivil y mo dy * 86400 + hh * 3600 + mi * 60 + ss :
                 Nat) : Int),
             nanos := ((frac : Nat) : Int) } := by
  rw [tsDeserializeChars]
  rw [readFixedNat_pad 4 y _ (by omega)]
  simp only [bind, Option.bind]
  rw [expectChar_self]
  simp only [bind, Option.bind]
  rw [readFixedNat_pad 2 mo _ (by omega)]
  simp only [bind, Option.bind]
  rw [expectChar_self]
  simp only [bind, Option.bind]
  rw [readFixedNat_pad 2 dy _ (by omega)]
  simp only [bind, Option.bind]
  rw [expectSep_T]
  simp only [bind, Option.bind]
  rw [readFixedNat_pad 2 hh _ (by omega)]
  simp only [bind, Option.bind]
  rw [expectChar_self]
  simp only [bind, Option.bind]
  rw [readFixedNat_pad 2 mi _ (by omega)]
  simp only [bind, Option.bind]
  rw [expectChar_self]
  simp only [bind, Option.bind]
  rw [readFixedNat_pad 2 ss _ (by omega)]
  simp only [bind, Option.bind]
  rw [readFrac_fracChars frac hfrac]
  simp only [bind, Option.bind]
  rw [readOffset_utc]
  simp only [bind, Option.bind]
  rw [if_pos ⟨hm1, hm2, hd1, hd2, hhh, hmi, hss, trivial⟩]
  simp


theorem tsDeserialize_rfc3339 (total frac : Nat) (h1 : total ≤ maxRfc3339Seconds)
    (h2 : frac < 1000000000) :
    tsDeserialize (String.mk (rfc3339Chars total frac)) =
      some { seconds := (total : Int), nanos := (frac : Int) } := by
  have hz : total / 86400 ≤ 2932896 := by
    rw [maxRfc3339Seconds] at h1; omega
  obtain ⟨hback, hy1, hy2, hm1, hm2, hd1, hd2⟩ := civil_inverse (total / 86400) hz
  rw [tsDeserialize]
  have hdata : (String.mk (rfc3339Chars total frac)).data =
      rfc3339Chars total frac := rfl
  rw [hdata]
  simp only [rfc3339Chars]
  rw [tsDeserializeChars_format _ _ _ _ _ _ _ (by omega) hy2 hm1 hm2 hd1 hd2
    (by omega) (by omega) (by omega) h2]
  simp only [Option.some.injEq, Timestamp.mk.injEq, Nat.cast_inj]
  refine ⟨?_, trivial⟩
  rw [hback]
  omega


theorem ts_roundtrip (ts : Timestamp) (h1 : 0 ≤ ts.seconds)
    (h2 : ts.seconds ≤ (maxRfc3339Seconds : Int)) (h3 : 0 ≤ ts.nanos)
    (h4 : ts.nanos < 1000000000) :
    (tsSerialize ts).bind tsDeserialize = some ts := by
  have hmax : maxRfc3339Seconds = 253402300799 := rfl
  have hsec : ts.seconds % (2 : Int) ^ 64 = ts.seconds :=
    Int.emod_eq_of_lt h1 (by rw [hmax] at h2; omega)
  have hnan : ts.nanos % (2 : Int) ^ 32 = ts.nanos :=
    Int.emod_eq_of_lt h3 (by omega)
  have e5 : ts.nanos.toNat / 1000000000 = 0 := by omega
  have e6 : ts.nanos.toNat % 1000000000 = ts.nanos.toNat := by omega
  simp only [tsSerialize, hsec, hnan, e5, e6, Nat.add_zero]
  rw [if_pos (by rw [hmax] at h2 ⊢; omega)]
  rw [Option.some_bind, tsDeserialize_rfc3339 _ _ (by rw [hmax] at h2 ⊢; omega)
    (by omega)]
  rw [Int.toNat_of_nonneg h1, Int.toNat_of_nonneg h3]

theorem tsOpt_roundtrip (o : Option Timestamp) (h : validTsOptB o = true) :
    (tsSerializeOpt o).bind tsDeserializeOpt = some o := by
  cases o with
  | none => simp [tsSerializeOpt, tsDeserializeOpt]
  | some ts =>
      simp only [validTsOptB, validTsB, Bool.and_eq_true,
        decide_eq_true_eq] at h
      obtain ⟨⟨⟨h1, h2⟩, h3⟩, h4⟩ := h
      have hrt := ts_roundtrip ts h1 h2 h3 h4
      obtain ⟨s, hs, hd⟩ := Option.bind_eq_some.mp hrt
      simp [tsSerializeOpt, hs, tsDeserializeOpt, hd]

theorem comment_roundtrip (c : TaskComment) (h : validCommentB c = true) :
    (encodeComment c).bind decodeComment = some c := by
  rw [validCommentB] at h
  obtain ⟨jc, he, hd⟩ := Option.bind_eq_some.mp (tsOpt_roundtrip _ h)
  simp [encodeComment, he, decodeComment, hd]

theorem attachment_roundtrip (a : TaskAttachment)
    (h : validAttachmentB a = true) :
    (encodeAttachment a).bind decodeAttachment = some a := by
  rw [validAttachmentB] at h
  obtain ⟨ja, he, hd⟩ := Option.bind_eq_some.mp (tsOpt_roundtrip _ h)
  simp [encodeAttachment, he, decodeAttachment, hd]

theorem mapM_roundtrip {α β : Type} (f : α → Option β) (g : β → Option α) :
    ∀ l : List α, (∀ a ∈ l, (f a).bind g = some a) →
      (optMapList f l).bind (optMapList g) = some l := by
  intro l
  induction l with
  | nil => intro _; simp [optMapList]
  | cons a l ih =>
      intro h
      obtain ⟨b, hfa, hgb⟩ := Option.bind_eq_some.mp (h a (by simp))
      obtain ⟨bs, hfl, hgl⟩ := Option.bind_eq_some.mp
        (ih (fun x hx => h x (by simp [hx])))
      simp [optMapList, hfa, hfl, hgb, hgl]

theorem task_roundtrip (t : Task) (h : validTaskB t = true) :
    (encodeTask t).bind decodeTask = some t := by
  simp only [validTaskB, Bool.and_eq_true, List.all_eq_true] at h
  obtain ⟨⟨⟨⟨hca, hua⟩, hdd⟩, hcs⟩, has⟩ := h
  obtain ⟨ca, hea, hda⟩ := Option.bind_eq_some.mp (tsOpt_roundtrip _ hca)
  obtain ⟨ua, heu, hdu⟩ := Option.bind_eq_some.mp (tsOpt_roundtrip _ hua)
  obtain ⟨dd, hed, hdd2⟩ := Option.bind_eq_some.mp (tsOpt_roundtrip _ hdd)
  obtain ⟨jcs, hecs, hdcs⟩ := Option.bind_eq_some.mp
    (mapM_roundtrip encodeComment decodeComment t.comments
      (fun c hc => comment_roundtrip c (hcs c hc)))
  obtain ⟨jas, heas, hdas⟩ := Option.bind_eq_some.mp
    (mapM_roundtrip encodeAttachment decodeAttachment t.attachments
      (fun a ha => attachment_roundtrip a (has a ha)))
  simp [encodeTask, hea, heu, hed, hecs, heas, decodeTask, hda, hdu, hdd2,
    hdcs, hdas]

theorem user_roundtrip (u : User) (h : validUserB u = true) :
    (encodeUser u).bind decodeUser = some u := by
  simp only [validUserB, Bool.and_eq_true] at h
  obtain ⟨⟨hca, hua⟩, hll⟩ := h
  obtain ⟨ca, hea, hda⟩ := Option.bind_eq_some.mp (tsOpt_roundtrip _ hca)
  obtain ⟨ua, heu, hdu⟩ := Option.bind_eq_some.mp (tsOpt_roundtrip _ hua)
  obtain ⟨ll, hel, hdl⟩ := Option.bind_eq_some.mp (tsOpt_roundtrip _ hll)
  simp [encodeUser, hea, heu, hel, decodeUser, hda, hdu, hdl]

theorem mapPairsM_roundtrip {α β : Type} (f : α → Option β) (g : β → Option α)
    (l : List (String × α)) (h : ∀ p ∈ l, (f p.2).bind g = some p.2) :
    (mapPairsM f l).bind (mapPairsM g) = some l := by
  simp only [mapPairsM]
  refine mapM_roundtrip _ _ l (fun p hp => ?_)
  obtain ⟨b, hf, hg⟩ := Option.bind_eq_some.mp (h p hp)
  simp [hf, hg]


theorem alookup_cons {α : Type} (k0 : String) (v0 : α) (rest : List (String × α))
    (k : String) :
    alookup ((k0, v0) :: rest) k = if k0 = k then some v0 else alookup rest k := rfl

theorem ainsert_cons {α : Type} (k0 : String) (v0 : α) (rest : List (String × α))
    (k : String) (v : α) :
    ainsert ((k0, v0) :: rest) k v =
      if k0 = k then (k, v) :: rest else (k0, v0) :: ainsert rest k v := rfl

theorem alookup_ainsert_self {α : Type} :
    ∀ (l : List (String × α)) (k : String) (v : α),
      alookup (ainsert l k v) k = some v
  | [], k, v => by simp [ainsert, alookup]
  | (k0, v0) :: rest, k, v => by
      by_cases h : k0 = k
      · simp [ainsert_cons, h, alookup_cons]
      · simp [ainsert_cons, h, alookup_cons, alookup_ainsert_self rest k v]

theorem alookup_ainsert_ne {α : Type} :
    ∀ (l : List (String × α)) (k k' : String) (v : α), k ≠ k' →
      alookup (ainsert l k v) k' = alookup l k'
  | [], k, k', v, h => by simp [ainsert, alookup_cons, h]
  | (k0, v0) :: rest, k, k', v, h => by
      by_cases h0 : k0 = k
      · subst h0; simp [ainsert_cons, alookup_cons, h]
      · simp only [ainsert_cons, if_neg h0, alookup_cons,
          alookup_ainsert_ne rest k k' v h]

theorem alookup_mem {α : Type} :
    ∀ {l : List (String × α)} {k : String} {v : α},
      alookup l k = some v → (k, v) ∈ l
  | [], k, v, h => by simp [alookup] at h
  | (k0, v0) :: rest, k, v, h => by
      rw [alookup_cons] at h
      by_cases h0 : k0 = k
      · subst h0; simp at h; simp [h]
      · rw [if_neg h0] at h
        exact List.mem_cons_of_mem _ (alookup_mem h)

theorem alookup_eq_none_of_not_mem_keys {α : Type} :
    ∀ {l : List (String × α)} {k : String},
      alookup l k = none → ∀ v, (k, v) ∉ l
  | [], k, _, v => by simp
  | (k0, v0) :: rest, k, h, v => by
      rw [alookup_cons] at h
      by_cases h0 : k0 = k
      · simp [h0] at h
      · rw [if_neg h0] at h
        intro hmem
        rcases List.mem_cons.mp hmem with heq | hmem'
        · exact h0 (congrArg Prod.fst heq).symm
        · exact alookup_eq_none_of_not_mem_keys h v hmem'

theorem mem_ainsert {α : Type} :
    ∀ {l : List (String × α)} {k : String} {v : α} {e : String × α},
      e ∈ ainsert l k v → e = (k, v) ∨ e ∈ l
  | [], k, v, e, h => by simp [ainsert] at h; simp [h]
  | (k0, v0) :: rest, k, v, e, h => by
      rw [ainsert_cons] at h
      by_cases h0 : k0 = k
      · rw [if_pos h0] at h
        rcases List.mem_cons.mp h with heq | hmem
        · exact Or.inl heq
        · exact Or.inr (List.mem_cons_of_mem _ hmem)
      · rw [if_neg h0] at h
        rcases List.mem_cons.mp h with heq | hmem
        · exact Or.inr (List.mem_cons.mpr (Or.inl heq))
        · rcases mem_ainsert hmem with h1 | h2
          · exact Or.inl h1
          · exact Or.inr (List.mem_cons_of_mem _ h2)

theorem mem_ainsert_of_nodup {α : Type} :
    ∀ {l : List (String × α)}, NodupKeys l →
      ∀ {k : String} {v : α} {e : String × α},
        e ∈ ainsert l k v → e = (k, v) ∨ (e ∈ l ∧ e.1 ≠ k)
  | [], _, k, v, e, h => by simp [ainsert] at h; simp [h]
  | (k0, v0) :: rest, hnd, k, v, e, h => by
      have hnd' : NodupKeys rest := by
        simpa [NodupKeys] using (List.nodup_cons.mp hnd).2
      have hk0 : k0 ∉ rest.map Prod.fst := by
        simpa [NodupKeys] using (List.nodup_cons.mp hnd).1
      rw [ainsert_cons] at h
      by_cases h0 : k0 = k
      · subst h0
        rw [if_pos rfl] at h
        rcases List.mem_cons.mp h with heq | hmem
        · exact Or.inl heq
        · refine Or.inr ⟨List.mem_cons_of_mem _ hmem, ?_⟩
          intro hek
          exact hk0 (by
            have : e.1 ∈ rest.map Prod.fst := List.mem_map_of_mem _ hmem
            rwa [hek] at this)
      · rw [if_neg h0] at h
        rcases List.mem_cons.mp h with heq | hmem
        · subst heq; exact Or.inr ⟨List.mem_cons_self _ _, h0⟩
        · rcases mem_ainsert_of_nodup hnd' hmem with h1 | ⟨h2, h3⟩
          · exact Or.inl h1
          · exact Or.inr ⟨List.mem_cons_of_mem _ h2, h3⟩

theorem nodupKeys_ainsert {α : Type} :
    ∀ {l : List (String × α)} (k : String) (v : α),
      NodupKeys l → NodupKeys (ainsert l k v)
  | [], k, v, _ => by simp [ainsert, NodupKeys]
  | (k0, v0) :: rest, k, v, hnd => by
      have hnd' : NodupKeys rest := by
        simpa [NodupKeys] using (List.nodup_cons.mp hnd).2
      have hk0 : k0 ∉ rest.map Prod.fst := by
        simpa [NodupKeys] using (List.nodup_cons.mp hnd).1
      rw [ainsert_cons]
      by_cases h0 : k0 = k
      · subst h0
        rw [if_pos rfl]
        unfold NodupKeys
        rw [List.map_cons]
        exact List.nodup_cons.mpr ⟨hk0, by simpa [NodupKeys] using hnd'⟩
      · rw [if_neg h0]
        unfold NodupKeys
        rw [List.map_cons]
        refine List.nodup_cons.mpr
          ⟨?_, by simpa [NodupKeys] using nodupKeys_ainsert k v hnd'⟩
        intro hmem
        rcases List.mem_map.mp hmem with ⟨e, he, hkey⟩
        rcases mem_ainsert he with h1 | h2
        · subst h1; exact h0 hkey.symm
        · refine hk0 ?_
          have hm := List.mem_map_of_mem Prod.fst h2
          rw [hkey] at hm
          exact hm

theorem alookup_aerase_self {α : Type} (l : List (String × α)) (k : String) :
    alookup (aerase l k) k = none := by
  induction l with
  | nil => rfl
  | cons e rest ih =>
      obtain ⟨k0, v0⟩ := e
      rw [aerase, List.filter_cons]
      by_cases h0 : k0 = k
      · subst h0
        rw [if_neg (by simp)]
        exact ih
      · rw [if_pos (by simpa using h0), alookup_cons, if_neg h0]
        exact ih

theorem alookup_aerase_ne {α : Type} (l : List (String × α)) (k k' : String)
    (h : k' ≠ k) : alookup (aerase l k) k' = alookup l k' := by
  induction l with
  | nil => rfl
  | cons e rest ih =>
      obtain ⟨k0, v0⟩ := e
      rw [aerase, List.filter_cons]
      by_cases h0 : k0 = k
      · subst h0
        rw [if_neg (by simp), alookup_cons, if_neg (fun hh => h hh.symm)]
        exact ih
      · rw [if_pos (by simpa using h0), alookup_cons, alookup_cons]
        by_cases h1 : k0 = k'
        · rw [if_pos h1, if_pos h1]
        · rw [if_neg h1, if_neg h1]
          exact ih

theorem ainsert_of_alookup_none {α : Type} :
    ∀ {l : List (String × α)} {k : String}, alookup l k = none →
      ∀ (v : α), ainsert l k v = l ++ [(k, v)]
  | [], k, _, v => rfl
  | (k0, v0) :: rest, k, h, v => by
      rw [alookup_cons] at h
      by_cases h0 : k0 = k
      · simp [h0] at h
      · rw [if_neg h0] at h
        simp [ainsert_cons, h0, ainsert_of_alookup_none h v]

theorem alookup_append_of_none {α : Type} :
    ∀ {l1 : List (String × α)} (l2 : List (String × α)) {k : String},
      alookup l1 k = none → alookup (l1 ++ l2) k = alookup l2 k
  | [], l2, k, _ => rfl
  | (k0, v0) :: rest, l2, k, h => by
      rw [alookup_cons] at h
      by_cases h0 : k0 = k
      · simp [h0] at h
      · rw [if_neg h0] at h
        simpa [alookup_cons, h0] using alookup_append_of_none l2 h

theorem ainsert_append_singleton {α : Type} :
    ∀ {l : List (String × α)} {k : String}, alookup l k = none →
      ∀ (v w : α), ainsert (l ++ [(k, v)]) k w = l ++ [(k, w)]
  | [], k, _, v, w => by simp [ainsert]
  | (k0, v0) :: rest, k, h, v, w => by
      rw [alookup_cons] at h
      by_cases h0 : k0 = k
      · simp [h0] at h
      · rw [if_neg h0] at h
        simp [ainsert_cons, h0, ainsert_append_singleton h v w]

/-- Claim C2, counterexample.  A reachable store (create alice with email
a@x, then a service update_user that changes her email to b@x without
maintaining the email index) contains a user whose email is b@x, yet
create_user with email b@x does NOT fail with AlreadyExists — it goes on
to mutate the store. -/
theorem C2_counterexample :
    (alookup exStoreStaleEmail.users "u1").map User.email = some "b@x" ∧
    (UserService.create_user exStoreStaleEmail exDupEmailReq "u2" ⟨70, 0⟩).1 ≠
      Except.error GStatus.alreadyExists ∧
    (UserService.create_user exStoreStaleEmail exDupEmailReq "u2" ⟨70, 0⟩).2 ≠
      exStoreStaleEmail := by
  decide

/-- Claim C2 as amended: whenever the EMAIL INDEX resolves the requested
email to an existing user (get_user_by_email returns a user), create_user
fails with AlreadyExists and returns the store unchanged. -/
theorem C2_amended_create_user_duplicate_email (d : StorageData)
    (req : CreateUserRequest) (new_id : String) (now : Timestamp)
    (h : (Storage.get_user_by_email d req.email).isSome) :
    UserService.create_user d req new_id now =
      (Except.error GStatus.alreadyExists, d) := by
  simp [UserService.create_user, h]

/-- Witness for the amended C2 at a concrete store that holds alice with
email a@x in both the primary map and the email index. -/
theorem C2_amended_witness :
    UserService.create_user exStoreAfterCreate
      { username := "eve", email := "a@x", full_name := "Eve", role := 1 }
      "u9" ⟨90, 0⟩ = (Except.error GStatus.alreadyExists, exStoreAfterCreate) :=
  C2_amended_create_user_duplicate_email exStoreAfterCreate
    { username := "eve", email := "a@x", full_name := "Eve", role := 1 }
    "u9" ⟨90, 0⟩ (by decide)

/-- Claim C3, evaluated at the failing input.  Patching task t1 with mask
["status"] at time 200 changes the STORED task's status to Done but
leaves its updated_at at the old value 100: the service stamps updated_at
only on the patch copy it echoes back, and patch_task has no mask arm
that copies updated_at onto the stored task. -/
theorem C3_eval_patch_does_not_stamp_stored_updated_at :
    (TaskService.update_task exPatchStore "t1" (some exPatchBody) ["status"]
        ⟨200, 0⟩).2.tasks =
      [("t1", { mkSimpleTask "t1" "Title" with
                  updated_at := some ⟨100, 0⟩, status := 4 })] ∧
    (some (⟨100, 0⟩ : Timestamp) ≠ some (⟨200, 0⟩ : Timestamp)) := by
  decide

/-- Claim C4, counterexample.  From the empty store (which satisfies the
invariant), create_task assigns t1 to user u; patch_task with mask
["assignedTo"] then reassigns it to v without touching user_tasks, so t1
still appears under user_tasks[u] while the stored task says v: the
invariant is broken by one of the four listed operations. -/
theorem C4_counterexample :
    userTasksCoherent StorageData.default = true ∧
    userTasksCoherent exAssignedStore = true ∧
    (Storage.patch_task exAssignedStore "t1" exReassignBody
        ["assignedTo"]).map userTasksCoherent = Except.ok false := by
  decide

/-- Claim C5, counterexample.  In the reachable store where alice's email
was changed to b@x through update_user (which does not maintain indexes),
delete_user("u1") returns true and removes the user, yet the email index
still maps the stale key a@x to the deleted identifier u1. -/
theorem C5_counterexample :
    (Storage.delete_user exStoreStaleEmail "u1").1 = true ∧
    alookup (Storage.delete_user exStoreStaleEmail "u1").2.users "u1" = none ∧
    alookup (Storage.delete_user exStoreStaleEmail "u1").2.users_by_email "a@x" =
      some "u1" := by
  decide

/-- Claim C6, evaluated at the failing input.  With four stored tasks
(and users), page_size 2 and page token "page_1", both list services
return a full batch of 2 and must, per the claim, emit "page_2"; the code
parses the RAW token "page_1" as u32, which fails and defaults to 0, so
it emits "page_1" again (an infinite pagination loop for clients). -/
theorem C6_eval_next_token_ignores_page_prefix :
    (TaskService.list_tasks exStore4 2 "page_1").tasks.length = 2 ∧
    (TaskService.list_tasks exStore4 2 "page_1").next_page_token = "page_1" ∧
    (UserService.list_users exStore4 2 "page_1").users.length = 2 ∧
    (UserService.list_users exStore4 2 "page_1").next_page_token = "page_1" ∧
    ("page_1" : String) ≠ "page_2" := by
  decide

/-- Claim C9, counterexample.  In a two-chunk upload whose chunks carry
filenames a.txt then b.txt, the filename used at finalization is b.txt,
not the first non-empty value a.txt the claim requires (the same holds
for content_type); only task_id is first-wins. -/
theorem C9_counterexample :
    (TaskService.upload_fold exChunks).filename = "b.txt" ∧
    firstNonEmpty (exChunks.map UploadTaskAttachmentRequest.filename) = "a.txt" ∧
    (TaskService.upload_fold exChunks).filename ≠
      firstNonEmpty (exChunks.map UploadTaskAttachmentRequest.filename) := by
  decide

/-- Claim C5 as amended: after delete_user(id) returns true, id is gone
from the users map and from the keys of user_tasks, and the index entries
keyed by the deleted user's CURRENT email and username are removed; the
value sides of the two indexes are free of id provided they were coherent
for that user beforehand (update_user can leave stale entries, see the
counterexample). -/
theorem C5_amended_delete_user_index_coherence (d : StorageData) (id : String)
    (u : User) (hu : alookup d.users id = some u) :
    (Storage.delete_user d id).1 = true ∧
    alookup (Storage.delete_user d id).2.users id = none ∧
    alookup (Storage.delete_user d id).2.user_tasks id = none ∧
    ((∀ k, alookup d.users_by_email k = some id → k = u.email) →
      ∀ k, alookup (Storage.delete_user d id).2.users_by_email k ≠ some id) ∧
    ((∀ k, alookup d.users_by_username k = some id → k = u.username) →
      ∀ k, alookup (Storage.delete_user d id).2.users_by_username k ≠ some id) := by
  simp only [Storage.delete_user, hu]
  refine ⟨trivial, alookup_aerase_self _ _, alookup_aerase_self _ _, ?_, ?_⟩
  · intro hcoh k hk
    by_cases hke : k = u.email
    · subst hke
      rw [alookup_aerase_self] at hk
      cases hk
    · rw [alookup_aerase_ne _ _ _ hke] at hk
      exact hke (hcoh k hk)
  · intro hcoh k hk
    by_cases hku : k = u.username
    · subst hku
      rw [alookup_aerase_self] at hk
      cases hk
    · rw [alookup_aerase_ne _ _ _ hku] at hk
      exact hku (hcoh k hk)

/-- Witness for the amended C5 on a concrete coherent store. -/
theorem C5_amended_witness :
    (Storage.delete_user exDeleteStore "u1").1 = true ∧
    alookup (Storage.delete_user exDeleteStore "u1").2.users "u1" = none ∧
    alookup (Storage.delete_user exDeleteStore "u1").2.user_tasks "u1" = none ∧
    alookup (Storage.delete_user exDeleteStore "u1").2.users_by_email
      "alice@x" ≠ some "u1" ∧
    alookup (Storage.delete_user exDeleteStore "u1").2.users_by_username
      "alice" ≠ some "u1" := by
  obtain ⟨h1, h2, h3, h4, h5⟩ :=
    C5_amended_delete_user_index_coherence exDeleteStore "u1"
      (mkSimpleUser "u1" "alice") (by decide)
  have hce : ∀ k, alookup exDeleteStore.users_by_email k = some "u1" →
      k = (mkSimpleUser "u1" "alice").email := by
    intro k hk
    rw [show exDeleteStore.users_by_email = [("alice@x", "u1")] from rfl,
      alookup_cons] at hk
    split at hk
    next h => exact h.symm
    next => cases hk
  have hcu : ∀ k, alookup exDeleteStore.users_by_username k = some "u1" →
      k = (mkSimpleUser "u1" "alice").username := by
    intro k hk
    rw [show exDeleteStore.users_by_username = [("alice", "u1")] from rfl,
      alookup_cons] at hk
    split at hk
    next h => exact h.symm
    next => cases hk
  exact ⟨h1, h2, h3, h4 hce "alice@x", h5 hcu "alice"⟩

theorem taskRef_iff {tasks : List (String × Task)} {u id : String} :
    taskRef tasks u id = true ↔
      ∃ t, alookup tasks id = some t ∧ t.assigned_to = u := by
  unfold taskRef
  cases h : alookup tasks id with
  | none => simp
  | some t => simp [beq_iff_eq]

theorem coherent_iff {d : StorageData} :
    userTasksCoherent d = true ↔ coherentP d.tasks d.user_tasks := by
  unfold userTasksCoherent coherentP
  simp [List.all_eq_true, taskRef_iff]

theorem noEmptyKeyRefs_iff {d : StorageData} :
    noEmptyKeyRefs d = true ↔ ∀ e ∈ d.user_tasks, e.1 = "" → e.2 = [] := by
  unfold noEmptyKeyRefs
  rw [List.all_eq_true]
  refine forall_congr' fun e => forall_congr' fun _ => ?_
  constructor
  · intro h heq
    rw [heq] at h
    simpa using h
  · intro h
    by_cases heq : e.1 = ""
    · simp [h heq]
    · simp [heq]

theorem create_task_unassigned (d : StorageData) (t : Task)
    (ha : t.assigned_to = "") :
    Storage.create_task d t = { d with tasks := ainsert d.tasks t.id t } := by
  simp [Storage.create_task, ha]

theorem create_task_assigned (d : StorageData) (t : Task)
    (ha : t.assigned_to ≠ "") :
    Storage.create_task d t =
      { d with
        tasks := ainsert d.tasks t.id t,
        user_tasks := ainsert d.user_tasks t.assigned_to
          (((alookup d.user_tasks t.assigned_to).getD []) ++ [t.id]) } := by
  simp [Storage.create_task, ha]

theorem delete_task_not_found (d : StorageData) (task_id : String)
    (h : alookup d.tasks task_id = none) :
    Storage.delete_task d task_id = (false, d) := by
  simp [Storage.delete_task, h]

theorem delete_task_unassigned (d : StorageData) (task_id : String)
    (task : Task) (h : alookup d.tasks task_id = some task)
    (ha : task.assigned_to = "") :
    Storage.delete_task d task_id =
      (true, { d with tasks := aerase d.tasks task_id }) := by
  simp [Storage.delete_task, h, ha]

theorem delete_task_assigned_found (d : StorageData) (task_id : String)
    (task : Task) (uts0 : List String)
    (h : alookup d.tasks task_id = some task) (ha : task.assigned_to ≠ "")
    (hu : alookup d.user_tasks task.assigned_to = some uts0) :
    Storage.delete_task d task_id =
      (true, { d with
        tasks := aerase d.tasks task_id,
        user_tasks := ainsert d.user_tasks task.assigned_to
          (uts0.filter (fun id => id != task_id)) }) := by
  simp [Storage.delete_task, h, ha, hu]

theorem delete_task_assigned_not_found (d : StorageData) (task_id : String)
    (task : Task)
    (h : alookup d.tasks task_id = some task) (ha : task.assigned_to ≠ "")
    (hu : alookup d.user_tasks task.assigned_to = none) :
    Storage.delete_task d task_id =
      (true, { d with tasks := aerase d.tasks task_id }) := by
  simp [Storage.delete_task, h, ha, hu]

theorem coherentP_fresh_task {tasks : List (String × Task)}
    {uts : List (String × List String)} {tid : String} (t : Task)
    (hc : coherentP tasks uts) (hf : alookup tasks tid = none) :
    coherentP (ainsert tasks tid t) uts := by
  intro e he id hid
  obtain ⟨t0, ht0, hass⟩ := hc e he id hid
  have hne : tid ≠ id := by
    rintro rfl
    rw [hf] at ht0
    cases ht0
  exact ⟨t0, by rw [alookup_ainsert_ne _ _ _ _ hne]; exact ht0, hass⟩

/-- Coherence is preserved by Storage::create_task with a fresh task id:
the task insertion cannot invalidate existing references, and the one new
reference pushed onto user_tasks[assigned_to] points at the new task. -/
theorem create_task_preserves_inv (d : StorageData) (t : Task)
    (hc : userTasksCoherent d = true) (hn : noEmptyKeyRefs d = true)
    (hnd : NodupKeys d.user_tasks) (hf : alookup d.tasks t.id = none) :
    userTasksCoherent (Storage.create_task d t) = true ∧
    noEmptyKeyRefs (Storage.create_task d t) = true ∧
    NodupKeys (Storage.create_task d t).user_tasks := by
  rw [coherent_iff] at hc
  rw [noEmptyKeyRefs_iff] at hn
  by_cases ha : t.assigned_to = ""
  · rw [create_task_unassigned d t ha, coherent_iff, noEmptyKeyRefs_iff]
    exact ⟨coherentP_fresh_task t hc hf, hn, hnd⟩
  · rw [create_task_assigned d t ha, coherent_iff, noEmptyKeyRefs_iff]
    refine ⟨?_, ?_, nodupKeys_ainsert _ _ hnd⟩
    · intro e he id hid
      rcases mem_ainsert he with heq | hmem
      · subst heq
        simp only at hid ⊢
        rcases List.mem_append.mp hid with hidold | hidnew
        · cases hlu : alookup d.user_tasks t.assigned_to with
          | none => rw [hlu] at hidold; cases hidold
          | some ids0 =>
              rw [hlu] at hidold
              obtain ⟨t0, ht0, hass⟩ :=
                hc (t.assigned_to, ids0) (alookup_mem hlu) id hidold
              have hne : t.id ≠ id := by
                rintro rfl
                rw [hf] at ht0
                cases ht0
              exact ⟨t0, by rw [alookup_ainsert_ne _ _ _ _ hne]; exact ht0, hass⟩
        · have : id = t.id := by simpa using hidnew
          subst this
          exact ⟨t, alookup_ainsert_self _ _ _, rfl⟩
      · exact coherentP_fresh_task t hc hf e hmem id hid
    · intro e he heq
      rcases mem_ainsert he with hnew | hmem
      · exact absurd (heq ▸ congrArg Prod.fst hnew) (Ne.symm ha)
      · exact hn e hmem heq

/-- Coherence is preserved by Storage::delete_task: the removed task's
references are retain-filtered out of its assignee's list, every other
reference names a different, surviving task, and (via the auxiliary
invariants) an unassigned task has no references at all. -/
theorem delete_task_preserves_inv (d : StorageData) (task_id : String)
    (hc : userTasksCoherent d = true) (hn : noEmptyKeyRefs d = true)
    (hnd : NodupKeys d.user_tasks) :
    userTasksCoherent (Storage.delete_task d task_id).2 = true ∧
    noEmptyKeyRefs (Storage.delete_task d task_id).2 = true ∧
    NodupKeys (Storage.delete_task d task_id).2.user_tasks := by
  rw [coherent_iff] at hc
  rw [noEmptyKeyRefs_iff] at hn
  cases hlt : alookup d.tasks task_id with
  | none =>
      rw [delete_task_not_found d task_id hlt]
      rw [coherent_iff, noEmptyKeyRefs_iff]
      exact ⟨hc, hn, hnd⟩
  | some task =>
      by_cases ha : task.assigned_to = ""
      · rw [delete_task_unassigned d task_id task hlt ha]
        rw [coherent_iff, noEmptyKeyRefs_iff]
        refine ⟨?_, hn, hnd⟩
        intro e he id hid
        obtain ⟨t0, ht0, hass⟩ := hc e he id hid
        have hne : id ≠ task_id := by
          rintro rfl
          rw [hlt] at ht0
          obtain rfl : task = t0 := by injection ht0
          have : e.2 = [] := hn e he (by rw [← hass, ha])
          rw [this] at hid
          cases hid
        exact ⟨t0, by rw [alookup_aerase_ne _ _ _ hne]; exact ht0, hass⟩
      · cases hlu : alookup d.user_tasks task.assigned_to with
        | none =>
            rw [delete_task_assigned_not_found d task_id task hlt ha hlu]
            rw [coherent_iff, noEmptyKeyRefs_iff]
            refine ⟨?_, hn, hnd⟩
            intro e he id hid
            obtain ⟨t0, ht0, hass⟩ := hc e he id hid
            have hne : id ≠ task_id := by
              rintro rfl
              rw [hlt] at ht0
              obtain rfl : task = t0 := by injection ht0
              obtain ⟨k0, l0⟩ := e
              exact alookup_eq_none_of_not_mem_keys hlu l0 (by
                rw [hass]; exact he)
            exact ⟨t0, by rw [alookup_aerase_ne _ _ _ hne]; exact ht0, hass⟩
        | some uts0 =>
            rw [delete_task_assigned_found d task_id task uts0 hlt ha hlu]
            rw [coherent_iff, noEmptyKeyRefs_iff]
            refine ⟨?_, ?_, nodupKeys_ainsert _ _ hnd⟩
            · intro e he id hid
              rcases mem_ainsert_of_nodup hnd he with heq | ⟨hmem, hkey⟩
              · subst heq
                simp only at hid ⊢
                have hid' := List.mem_filter.mp hid
                have hne : id ≠ task_id := by simpa using hid'.2
                obtain ⟨t0, ht0, hass⟩ :=
                  hc (task.assigned_to, uts0) (alookup_mem hlu) id hid'.1
                exact ⟨t0, by rw [alookup_aerase_ne _ _ _ hne]; exact ht0, hass⟩
              · obtain ⟨t0, ht0, hass⟩ := hc e hmem id hid
                have hne : id ≠ task_id := by
                  rintro rfl
                  rw [hlt] at ht0
                  obtain rfl : task = t0 := by injection ht0
                  exact hkey hass.symm
                exact ⟨t0, by rw [alookup_aerase_ne _ _ _ hne]; exact ht0, hass⟩
            · intro e he heq
              rcases mem_ainsert he with hnew | hmem
              · exact absurd (heq ▸ congrArg Prod.fst hnew) (Ne.symm ha)
              · exact hn e hmem heq

/-- Claim C4 as amended: the user_tasks coherence invariant (together
with the auxiliary facts that the empty-string key indexes nothing and
that keys are duplicate-free, both true in every reachable state) is
preserved by create_task with a fresh task id and by delete_task.  The
other two listed operations, update_task and patch_task, do not maintain
user_tasks at all and break the invariant when they change assigned_to
(counterexample above). -/
theorem C4_amended_inv_preserved_by_create_and_delete :
    (∀ (d : StorageData) (t : Task),
      userTasksCoherent d = true → noEmptyKeyRefs d = true →
      NodupKeys d.user_tasks → alookup d.tasks t.id = none →
      userTasksCoherent (Storage.create_task d t) = true ∧
      noEmptyKeyRefs (Storage.create_task d t) = true ∧
      NodupKeys (Storage.create_task d t).user_tasks) ∧
    (∀ (d : StorageData) (task_id : String),
      userTasksCoherent d = true → noEmptyKeyRefs d = true →
      NodupKeys d.user_tasks →
      userTasksCoherent (Storage.delete_task d task_id).2 = true ∧
      noEmptyKeyRefs (Storage.delete_task d task_id).2 = true ∧
      NodupKeys (Storage.delete_task d task_id).2.user_tasks) :=
  ⟨fun d t hc hn hnd hf => create_task_preserves_inv d t hc hn hnd hf,
   fun d task_id hc hn hnd => delete_task_preserves_inv d task_id hc hn hnd⟩

theorem uploadStep_task_id (st : TaskService.UploadState)
    (c : UploadTaskAttachmentRequest) :
    (TaskService.uploadStep st c).task_id =
      if c.task_id ≠ "" ∧ st.task_id = "" then c.task_id else st.task_id := by
  by_cases h1 : c.task_id = "" <;> by_cases h2 : c.filename = "" <;>
    by_cases h3 : c.content_type = "" <;> by_cases h4 : st.task_id = "" <;>
    simp [TaskService.uploadStep, h1, h2, h3, h4]

theorem uploadStep_filename (st : TaskService.UploadState)
    (c : UploadTaskAttachmentRequest) :
    (TaskService.uploadStep st c).filename =
      if c.filename ≠ "" then c.filename else st.filename := by
  by_cases h1 : c.task_id = "" <;> by_cases h2 : c.filename = "" <;>
    by_cases h3 : c.content_type = "" <;> by_cases h4 : st.task_id = "" <;>
    simp [TaskService.uploadStep, h1, h2, h3, h4]

theorem uploadStep_content_type (st : TaskService.UploadState)
    (c : UploadTaskAttachmentRequest) :
    (TaskService.uploadStep st c).content_type =
      if c.content_type ≠ "" then c.content_type else st.content_type := by
  by_cases h1 : c.task_id = "" <;> by_cases h2 : c.filename = "" <;>
    by_cases h3 : c.content_type = "" <;> by_cases h4 : st.task_id = "" <;>
    simp [TaskService.uploadStep, h1, h2, h3, h4]

theorem uploadStep_file_data (st : TaskService.UploadState)
    (c : UploadTaskAttachmentRequest) :
    (TaskService.uploadStep st c).file_data = st.file_data ++ c.chunk := by
  by_cases h1 : c.task_id = "" <;> by_cases h2 : c.filename = "" <;>
    by_cases h3 : c.content_type = "" <;> by_cases h4 : st.task_id = "" <;>
    simp [TaskService.uploadStep, h1, h2, h3, h4]

theorem upload_fold_task_id_aux :
    ∀ (cs : List UploadTaskAttachmentRequest) (st : TaskService.UploadState),
      (cs.foldl TaskService.uploadStep st).task_id =
        if st.task_id = "" then
          ((cs.map (fun c => c.task_id)).filter (fun s => s != "")).headD ""
        else st.task_id
  | [], st => by
      by_cases h : st.task_id = "" <;> simp [h]
  | c :: cs, st => by
      by_cases hst : st.task_id = ""
      · by_cases hcv : c.task_id = ""
        · have hstep : (TaskService.uploadStep st c).task_id = st.task_id := by
            rw [uploadStep_task_id, if_neg (by simp [hcv])]
          rw [List.foldl_cons,
            upload_fold_task_id_aux cs (TaskService.uploadStep st c), hstep,
            if_pos hst, if_pos hst, List.map_cons, List.filter_cons,
            if_neg (by simp [hcv])]
        · have hstep : (TaskService.uploadStep st c).task_id = c.task_id := by
            rw [uploadStep_task_id, if_pos ⟨hcv, hst⟩]
          rw [List.foldl_cons,
            upload_fold_task_id_aux cs (TaskService.uploadStep st c), hstep,
            if_neg hcv, if_pos hst, List.map_cons, List.filter_cons,
            if_pos (by simpa using hcv), List.headD_cons]
      · have hstep : (TaskService.uploadStep st c).task_id = st.task_id := by
          rw [uploadStep_task_id, if_neg (fun hh => hst hh.2)]
        rw [List.foldl_cons,
          upload_fold_task_id_aux cs (TaskService.uploadStep st c), hstep,
          if_neg hst, if_neg hst]

theorem upload_fold_filename_aux :
    ∀ (cs : List UploadTaskAttachmentRequest) (st : TaskService.UploadState),
      (cs.foldl TaskService.uploadStep st).filename =
        ((cs.map (fun c => c.filename)).filter (fun s => s != "")).getLastD
          st.filename
  | [], st => rfl
  | c :: cs, st => by
      by_cases hcv : c.filename = ""
      · have hstep : (TaskService.uploadStep st c).filename = st.filename := by
          rw [uploadStep_filename, if_neg (fun hh => hh hcv)]
        rw [List.foldl_cons,
          upload_fold_filename_aux cs (TaskService.uploadStep st c), hstep,
          List.map_cons, List.filter_cons, if_neg (by simp [hcv])]
      · have hstep : (TaskService.uploadStep st c).filename = c.filename := by
          rw [uploadStep_filename, if_pos hcv]
        rw [List.foldl_cons,
          upload_fold_filename_aux cs (TaskService.uploadStep st c), hstep,
          List.map_cons, List.filter_cons, if_pos (by simpa using hcv),
          List.getLastD_cons]

theorem upload_fold_content_type_aux :
    ∀ (cs : List UploadTaskAttachmentRequest) (st : TaskService.UploadState),
      (cs.foldl TaskService.uploadStep st).content_type =
        ((cs.map (fun c => c.content_type)).filter (fun s => s != "")).getLastD
          st.content_type
  | [], st => rfl
  | c :: cs, st => by
      by_cases hcv : c.content_type = ""
      · have hstep : (TaskService.uploadStep st c).content_type =
            st.content_type := by
          rw [uploadStep_content_type, if_neg (fun hh => hh hcv)]
        rw [List.foldl_cons,
          upload_fold_content_type_aux cs (TaskService.uploadStep st c), hstep,
          List.map_cons, List.filter_cons, if_neg (by simp [hcv])]
      · have hstep : (TaskService.uploadStep st c).content_type =
            c.content_type := by
          rw [uploadStep_content_type, if_pos hcv]
        rw [List.foldl_cons,
          upload_fold_content_type_aux cs (TaskService.uploadStep st c), hstep,
          List.map_cons, List.filter_cons, if_pos (by simpa using hcv),
          List.getLastD_cons]

theorem upload_fold_file_data_aux :
    ∀ (cs : List UploadTaskAttachmentRequest) (st : TaskService.UploadState),
      (cs.foldl TaskService.uploadStep st).file_data =
        st.file_data ++ (cs.map (fun c => c.chunk)).flatten
  | [], st => by simp
  | c :: cs, st => by
      rw [List.foldl_cons,
        upload_fold_file_data_aux cs (TaskService.uploadStep st c),
        uploadStep_file_data]
      simp

/-- Claim C9 as amended: at finalization the destination task id is the
value of the FIRST chunk carrying a non-empty task id, but filename and
content type are the values of the LAST chunk carrying non-empty ones
(each later non-empty value overwrites the earlier); payload bytes are
concatenated in arrival order. -/
theorem C9_amended_upload_metadata (chunks : List UploadTaskAttachmentRequest) :
    (TaskService.upload_fold chunks).task_id =
      firstNonEmpty (chunks.map (fun c => c.task_id)) ∧
    (TaskService.upload_fold chunks).filename =
      lastNonEmpty (chunks.map (fun c => c.filename)) ∧
    (TaskService.upload_fold chunks).content_type =
      lastNonEmpty (chunks.map (fun c => c.content_type)) ∧
    (TaskService.upload_fold chunks).file_data =
      (chunks.map (fun c => c.chunk)).flatten := by
  refine ⟨?_, ?_, ?_, ?_⟩
  · rw [TaskService.upload_fold, upload_fold_task_id_aux, firstNonEmpty]
    simp [TaskService.uploadInit]
  · rw [TaskService.upload_fold, upload_fold_filename_aux, lastNonEmpty]
    rfl
  · rw [TaskService.upload_fold, upload_fold_content_type_aux, lastNonEmpty]
    rfl
  · rw [TaskService.upload_fold, upload_fold_file_data_aux]
    rfl

/-- Witness for the amended C4: create a fresh assigned task on a
concrete coherent store, then delete a task, with the invariant checked
concretely on the results. -/
theorem C4_amended_witness :
    (userTasksCoherent (Storage.create_task exAssignedStore
        { mkSimpleTask "t2" "U" with assigned_to := "w" }) = true ∧
      noEmptyKeyRefs (Storage.create_task exAssignedStore
        { mkSimpleTask "t2" "U" with assigned_to := "w" }) = true ∧
      NodupKeys (Storage.create_task exAssignedStore
        { mkSimpleTask "t2" "U" with assigned_to := "w" }).user_tasks) ∧
    (userTasksCoherent (Storage.delete_task exAssignedStore "t1").2 = true ∧
      noEmptyKeyRefs (Storage.delete_task exAssignedStore "t1").2 = true ∧
      NodupKeys (Storage.delete_task exAssignedStore "t1").2.user_tasks) :=
  ⟨C4_amended_inv_preserved_by_create_and_delete.1 exAssignedStore
      { mkSimpleTask "t2" "U" with assigned_to := "w" }
      (by decide) (by decide) (by decide) (by decide),
   C4_amended_inv_preserved_by_create_and_delete.2 exAssignedStore "t1"
      (by decide) (by decide) (by decide)⟩

theorem natOfDigitsAcc_eq_none :
    ∀ (cs : List Char) (acc : Nat), cs.all Char.isDigit = false →
      natOfDigitsAcc cs acc = none
  | [], acc, h => by simp at h
  | c :: cs, acc, h => by
      rw [List.all_cons] at h
      unfold natOfDigitsAcc
      by_cases hc : c.isDigit = true
      · rw [if_pos hc]
        exact natOfDigitsAcc_eq_none cs _ (by simpa [hc] using h)
      · rw [if_neg hc]

theorem parseDigits_eq_none_of_not_all (maxv : Nat) :
    ∀ (cs : List Char), cs.all Char.isDigit = false →
      parseDigits maxv cs = none
  | [], _ => rfl
  | c :: cs, h => by
      show (match natOfDigitsAcc (c :: cs) 0 with
            | some v => if v ≤ maxv then some v else none
            | none => none) = none
      rw [natOfDigitsAcc_eq_none _ _ h]

theorem parseUNat_eq_none (maxv : Nat) (cs : List Char)
    (h : specDigitsOk cs = false) : parseUNat maxv cs = none := by
  cases cs with
  | nil => rfl
  | cons c rest =>
      by_cases hc : c = '+'
      · subst hc
        have h' : (!rest.isEmpty && rest.all Char.isDigit) = false := h
        show parseDigits maxv rest = none
        cases rest with
        | nil => rfl
        | cons d ds =>
            exact parseDigits_eq_none_of_not_all maxv _ (by simpa using h')
      · have h' : (c :: rest).all Char.isDigit = false := by
          have heq : specDigitsOk (c :: rest) = (c :: rest).all Char.isDigit :=
            if_neg hc
          rw [← heq]
          exact h
        have hstrip : stripPlusSign (c :: rest) = c :: rest := if_neg hc
        show parseDigits maxv (stripPlusSign (c :: rest)) = none
        rw [hstrip]
        exact parseDigits_eq_none_of_not_all maxv _ h'

/-- Any token that is not "page_" followed by a non-negative integer
decodes to page 0 — token decoding never fails a request. -/
theorem decodePageToken_eq_zero_of_not_wf (tok : String)
    (h : specTokenWellFormed tok = false) : decodePageToken tok = 0 := by
  unfold specTokenWellFormed at h
  unfold decodePageToken
  split at h
  next rest heq =>
      rw [parseUNat_eq_none usizeMax rest h]
      rfl
  next => rfl

/-- Claim C7: token decoding is total with page-0 fallback, and for
decoded page N with non-negative page size S (no wraparound), the batch
is exactly items[N*S : N*S+S] of the iteration order, for both tasks and
users. -/
theorem C7_token_decoding_and_slicing (tok : String) (d : StorageData)
    (S : Int) (hS0 : 0 ≤ S) (hS1 : S < 2 ^ 31)
    (hov : decodePageToken tok * S.toNat + S.toNat < 2 ^ 64) :
    (specTokenWellFormed tok = false → decodePageToken tok = 0) ∧
    Storage.list_tasks d S tok =
      specSlice (d.tasks.map Prod.snd) (decodePageToken tok * S.toNat) S.toNat ∧
    Storage.list_users d S tok =
      specSlice (d.users.map Prod.snd) (decodePageToken tok * S.toNat) S.toNat := by
  have hS' : usizeOfI32 S = S.toNat := by
    unfold usizeOfI32
    omega
  have hstart : (decodePageToken tok * S.toNat) % 2 ^ 64 =
      decodePageToken tok * S.toNat := Nat.mod_eq_of_lt (by omega)
  refine ⟨decodePageToken_eq_zero_of_not_wf tok, ?_, ?_⟩
  · simp only [Storage.list_tasks, specSlice]
    rw [hS', hstart, List.take_drop]
  · simp only [Storage.list_users, specSlice]
    rw [hS', hstart, List.take_drop]

/-- Witness for C7 at token "page_2", page size 2, on the store with four
tasks and four users. -/
theorem C7_witness :
    (specTokenWellFormed "page_2" = false → decodePageToken "page_2" = 0) ∧
    Storage.list_tasks exStore4 2 "page_2" =
      specSlice (exStore4.tasks.map Prod.snd)
        (decodePageToken "page_2" * (2 : Int).toNat) (2 : Int).toNat ∧
    Storage.list_users exStore4 2 "page_2" =
      specSlice (exStore4.users.map Prod.snd)
        (decodePageToken "page_2" * (2 : Int).toNat) (2 : Int).toNat :=
  C7_token_decoding_and_slicing "page_2" exStore4 2 (by decide) (by decide)
    (by decide)

theorem create_task_tasks (d : StorageData) (t : Task) :
    (Storage.create_task d t).tasks = ainsert d.tasks t.id t := by
  by_cases ha : t.assigned_to = ""
  · rw [create_task_unassigned d t ha]
  · rw [create_task_assigned d t ha]

theorem patch_task_found (d : StorageData) (task_id : String) (patch : Task)
    (mask : List String) (existing : Task)
    (h : alookup d.tasks task_id = some existing) :
    Storage.patch_task d task_id patch mask =
      Except.ok { d with tasks := ainsert d.tasks task_id (mask.foldl
        (fun ex f => Storage.applyMaskField ex patch f) existing) } := by
  simp [Storage.patch_task, h]

/-- Claim C8: a freshly created task with a past due date and status Todo
raises count_overdue_tasks by one, and patching its status to Done via
mask ["status"] brings the count back to the original value. -/
theorem C8_overdue_transition (d : StorageData) (t : Task) (now : Int)
    (dd : Timestamp) (hdue : t.due_date = some dd) (hlt : dd.seconds < now)
    (hstatus : t.status = TaskStatus.todo) (hf : alookup d.tasks t.id = none) :
    Storage.count_overdue_tasks (Storage.create_task d t) now =
      Storage.count_overdue_tasks d now + 1 ∧
    (∀ (patch : Task) (d2 : StorageData), patch.status = TaskStatus.done →
      Storage.patch_task (Storage.create_task d t) t.id patch ["status"] =
        Except.ok d2 →
      Storage.count_overdue_tasks d2 now = Storage.count_overdue_tasks d now) := by
  have htasks : (Storage.create_task d t).tasks = d.tasks ++ [(t.id, t)] := by
    rw [create_task_tasks, ainsert_of_alookup_none hf]
  have hover : Storage.isOverdue t now = true := by
    unfold Storage.isOverdue
    rw [hdue, hstatus]
    simp [TaskStatus.todo, hlt]
  constructor
  · unfold Storage.count_overdue_tasks
    rw [htasks, List.map_append, List.filter_append]
    simp [hover]
  · intro patch d2 hps hpt
    have hlook : alookup (Storage.create_task d t).tasks t.id = some t := by
      rw [htasks, alookup_append_of_none _ hf, alookup_cons, if_pos rfl]
    have hupd : List.foldl (fun ex f => Storage.applyMaskField ex patch f) t
        ["status"] = { t with status := patch.status } := rfl
    have hpt2 : Storage.patch_task (Storage.create_task d t) t.id patch
        ["status"] = Except.ok { Storage.create_task d t with
          tasks := d.tasks ++ [(t.id, { t with status := patch.status })] } := by
      rw [patch_task_found _ _ _ _ _ hlook, hupd, htasks,
        ainsert_append_singleton hf]
    rw [hpt2] at hpt
    obtain rfl : _ = d2 := by injection hpt
    have hnotover : Storage.isOverdue { t with status := patch.status } now
        = false := by
      unfold Storage.isOverdue
      rw [show ({ t with status := patch.status } : Task).due_date = t.due_date
        from rfl, hdue]
      simp [hps, TaskStatus.done]
    show (((d.tasks ++ [(t.id, { t with status := patch.status })]).map
        Prod.snd).filter (fun tk => Storage.isOverdue tk now)).length =
      Storage.count_overdue_tasks d now
    rw [List.map_append, List.filter_append]
    simp [hnotover, Storage.count_overdue_tasks]

/-- Witness for C8 on the concrete overdue store. -/
theorem C8_witness :
    Storage.count_overdue_tasks
        (Storage.create_task StorageData.default exOverdueTask) 100 =
      Storage.count_overdue_tasks StorageData.default 100 + 1 ∧
    Storage.count_overdue_tasks exOverduePatched 100 =
      Storage.count_overdue_tasks StorageData.default 100 :=
  have h := C8_overdue_transition StorageData.default exOverdueTask 100
    ⟨0, 0⟩ (by decide) (by decide) (by decide) (by decide)
  ⟨h.1, h.2 exPatchBody exOverduePatched (by decide) (by decide)⟩

/-- Claim C10: a negative page_size cast to usize wraps to a value above
2^63, so the take count never truncates: the result is everything from
the (wrapped) start offset onward, and in particular the whole collection
on page 0. -/
theorem C10_negative_page_size (d : StorageData) (S : Int) (tok : String)
    (hS : S < 0) (hS2 : -(2 ^ 31) ≤ S)
    (hlt : d.tasks.length ≤ 2 ^ 63) (hlu : d.users.length ≤ 2 ^ 63) :
    2 ^ 63 < usizeOfI32 S ∧
    Storage.list_tasks d S tok =
      (d.tasks.map Prod.snd).drop
        ((decodePageToken tok * usizeOfI32 S) % 2 ^ 64) ∧
    Storage.list_users d S tok =
      (d.users.map Prod.snd).drop
        ((decodePageToken tok * usizeOfI32 S) % 2 ^ 64) ∧
    (decodePageToken tok = 0 →
      Storage.list_tasks d S tok = d.tasks.map Prod.snd ∧
      Storage.list_users d S tok = d.users.map Prod.snd) := by
  have hbig : 2 ^ 63 < usizeOfI32 S := by
    unfold usizeOfI32
    omega
  refine ⟨hbig, ?_, ?_, ?_⟩
  · simp only [Storage.list_tasks]
    exact List.take_of_length_le (by
      rw [List.length_drop, List.length_map]; omega)
  · simp only [Storage.list_users]
    exact List.take_of_length_le (by
      rw [List.length_drop, List.length_map]; omega)
  · intro h0
    constructor
    · simp only [Storage.list_tasks, h0, Nat.zero_mul, Nat.zero_mod,
        List.drop_zero]
      exact List.take_of_length_le (by rw [List.length_map]; omega)
    · simp only [Storage.list_users, h0, Nat.zero_mul, Nat.zero_mod,
        List.drop_zero]
      exact List.take_of_length_le (by rw [List.length_map]; omega)

/-- Witness for C10 at page_size -1 and the empty token on the four-item
store. -/
theorem C10_witness :
    2 ^ 63 < usizeOfI32 (-1) ∧
    Storage.list_tasks exStore4 (-1) "" =
      (exStore4.tasks.map Prod.snd).drop
        ((decodePageToken "" * usizeOfI32 (-1)) % 2 ^ 64) ∧
    Storage.list_users exStore4 (-1) "" =
      (exStore4.users.map Prod.snd).drop
        ((decodePageToken "" * usizeOfI32 (-1)) % 2 ^ 64) ∧
    (decodePageToken "" = 0 →
      Storage.list_tasks exStore4 (-1) "" = exStore4.tasks.map Prod.snd ∧
      Storage.list_users exStore4 (-1) "" = exStore4.users.map Prod.snd) :=
  C10_negative_page_size exStore4 (-1) "" (by decide) (by decide)
    (by decide) (by decide)


/-- C1: the snapshot round trip FAILS on a reachable store.  A task whose
due date lies before the epoch (seconds = -1) is accepted by create_task,
but save_to_disk then errors: timestamp_serde casts the seconds to u64,
producing 2^64 - 1, and UNIX_EPOCH.checked_add overflows, so the store can
not be persisted at all, let alone round-tripped. -/
theorem C1_counterexample :
    exBadStore =
      (TaskService.create_task StorageData.default exBadDueReq "t1"
        { seconds := 0, nanos := 0 }).2 ∧
    (encodeStorage exBadStore).bind decodeStorage ≠ some exBadStore :=
  ⟨rfl, by decide⟩

/-- C1 (amended): for every store whose timestamps are all RFC3339
representable (0 ≤ seconds ≤ 253402300799, the four-digit-year range, and
0 ≤ nanos < 10^9), save_to_disk followed by load_from_disk restores the
store exactly: same users, same tasks, same indexes, every field equal. -/
theorem C1_amended_snapshot_roundtrip (d : StorageData)
    (h : validStorageB d = true) :
    (encodeStorage d).bind decodeStorage = some d := by
  simp only [validStorageB, Bool.and_eq_true, List.all_eq_true] at h
  obtain ⟨hu, ht⟩ := h
  obtain ⟨jus, heu, hdu⟩ := Option.bind_eq_some.mp
    (mapPairsM_roundtrip encodeUser decodeUser d.users
      (fun p hp => user_roundtrip p.2 (hu p hp)))
  obtain ⟨jts, het, hdt⟩ := Option.bind_eq_some.mp
    (mapPairsM_roundtrip encodeTask decodeTask d.tasks
      (fun p hp => task_roundtrip p.2 (ht p hp)))
  simp [encodeStorage, heu, het, decodeStorage, hdu, hdt]

/-- C1 witness: the amended round trip evaluated on a concrete populated
store (one user, one task, timestamps covering the formatter's no-fraction,
millisecond and full-nanosecond shapes). -/
theorem C1_amended_witness :
    validStorageB exCodecStore = true ∧
    (encodeStorage exCodecStore).bind decodeStorage = some exCodecStore :=
  ⟨by decide, C1_amended_snapshot_roundtrip exCodecStore (by decide)⟩

end Tasker
